import Mathlib

/-!
Verification of the Luma normalization pipeline and forecasting engine.

This file gives a shallow embedding, in Lean 4, of the data-cleaning stages
(`src/pipeline/stages/*.py`), the pipeline orchestrator (`src/pipeline/runner.py`
together with the session handling of `src/db/session.py`), and the forecasting
runner and statistical provider (`src/core/forecast/runner.py`,
`src/core/forecast/simple.py`).

Modelling conventions:
* pandas dataframes become `List` of typed records; each stage that adds a
  column becomes a function into a record type extended by that column;
* Python floats become `ℚ` (the numeric algorithms are exact arithmetic over
  the values involved; square roots, used only for the confidence bands of
  forecast results, are not modelled and those two fields are omitted);
* calendar dates become `Int` day numbers; a timestamp is a day plus the
  second of that day, so that taking the UTC calendar date of a timestamp
  is the projection to the day;
* the SQLAlchemy session (delete-then-insert pending until `commit`, rolled
  back on an exception, as in `get_session` of `src/db/session.py`) becomes
  an explicit state-passing wrapper `get_session` over a fallible body;
* external code that is not part of the repository (statsmodels Holt-Winters,
  the AWS provider's bulk call) is a function parameter of the embedded
  caller, so theorems quantify over its behaviour.
-/

namespace Luma

/-- A point in time: UTC calendar day plus second of the day.  Taking the
calendar date of a timestamp (`pd.to_datetime(...).dt.date` in
`stages/timezone.py`) is the projection `utcDay`. -/
structure Timestamp where
  utcDay : Int
  secondOfDay : Nat
deriving DecidableEq

/-- A raw order line (`RawOrder` in `src/db/models.py`), as loaded by
`PipelineRunner._load_raw_orders`. -/
structure RawOrder where
  store_id : String
  external_order_id : String
  external_line_id : Option String
  sku_raw : String
  product_id : Option String
  variant_id : Option String
  quantity : ℚ
  unit_price : ℚ
  currency : String
  order_date_utc : Timestamp
  category : Option String
deriving DecidableEq

/-- A raw refund row (`RawRefund` in `src/db/models.py`). -/
structure RawRefund where
  store_id : String
  external_order_id : String
  amount : ℚ
  currency : String
deriving DecidableEq

/-- A SKU mapping row (`SKUMapping` in `src/db/models.py`). -/
structure SKUMapping where
  store_id : String
  sku_raw : String
  canonical_sku : String
deriving DecidableEq

/-- Per-store pipeline configuration (`PipelineConfig` in
`src/pipeline/config.py`).  The exchange-rate dict becomes an association
list. -/
structure PipelineConfig where
  store_id : String
  timezone : String
  base_currency : String
  exchange_rates : List (String × ℚ)
deriving DecidableEq

/-- `PipelineConfig.to_base_currency` of `src/pipeline/config.py`: identity
for the base currency, table lookup on the upper-cased code otherwise, and a
silent 1:1 fallback when the code has no entry. -/
def PipelineConfig.to_base_currency (self : PipelineConfig) (amount : ℚ) (currency : String) : ℚ :=
  if currency = self.base_currency then amount
  else
    match self.exchange_rates.lookup currency.toUpper with
    | none => amount
    | some rate => amount * rate

/-- An order line after the timezone stage: the raw line plus the derived
`series_date` column (`stages/timezone.py`). -/
structure TzOrder extends RawOrder where
  series_date : Int
deriving DecidableEq

/-- An order line after the currency stage: additionally carries
`revenue_base` (`stages/currency.py`). -/
structure CurOrder extends TzOrder where
  revenue_base : ℚ
deriving DecidableEq

/-- An order line after the SKU dedup stage: additionally carries
`canonical_sku` (`stages/dedup.py`). -/
structure DedupOrder extends CurOrder where
  canonical_sku : String
deriving DecidableEq

/-- A normalized series point (a row of the dataframe produced by
`stages/rollups.py` and later stages, and the payload of
`NormalizedSeries` in `src/db/models.py`). -/
structure SeriesRow where
  store_id : String
  sku_id : String
  category_id : Option String
  series_date : Int
  quantity : ℚ
  revenue : ℚ
  is_interpolated : Bool
  is_outlier_adjusted : Bool
deriving DecidableEq

/-- The timezone stage (`TimezoneNormalizer` of `stages/timezone.py`). -/
structure TimezoneNormalizer where
  store_timezone : String

/-- `TimezoneNormalizer.transform`: derives `series_date` as the UTC calendar
date of `order_date_utc` for every row.  (The stored `store_timezone` is not
used by the transform, exactly as in the source.) -/
def TimezoneNormalizer.transform (_self : TimezoneNormalizer) (orders : List RawOrder) :
    List TzOrder :=
  orders.map (fun o => { toRawOrder := o, series_date := o.order_date_utc.utcDay })

/-- `CurrencyNormalizer.transform` of `stages/currency.py`: sets
`revenue_base` to `quantity * unit_price` converted by
`PipelineConfig.to_base_currency`. -/
def CurrencyNormalizer.transform (config : PipelineConfig) (orders : List TzOrder) :
    List CurOrder :=
  orders.map (fun o =>
    { toTzOrder := o
      revenue_base := config.to_base_currency (o.quantity * o.unit_price) o.currency })

/-- The store id. taken from the first order row
(`orders["store_id"].iloc[0]` in `stages/refunds.py`). -/
def headStore (orders : List CurOrder) : String :=
  match orders with
  | [] => ""
  | o :: _ => o.store_id

/-- Total refund booked against one `external_order_id`, in base currency:
the entry of the `refund_by_order` dict built in
`RefundAdjustment.transform` (0 when the order has no refunds). -/
def RefundAdjustment.refund_by_order (refunds : List RawRefund) (config : PipelineConfig)
    (store_id oid : String) : ℚ :=
  (((refunds.filter (fun r => r.store_id = store_id)).filter
      (fun r => r.external_order_id = oid)).map
    (fun r => config.to_base_currency r.amount r.currency)).sum

/-- `RefundAdjustment.transform` of `stages/refunds.py`: loads the store's
refunds, and reduces each line's `revenue_base` by its proportional share
`revenue_base / order_revenue * order_refund` of the order's total refund,
clamped below at 0; orders with non-positive total revenue get no share. -/
def RefundAdjustment.transform (refunds : List RawRefund) (config : PipelineConfig)
    (orders : List CurOrder) : List CurOrder :=
  match orders with
  | [] => orders
  | _ :: _ =>
    let store_id := headStore orders
    if refunds.filter (fun r => r.store_id = store_id) = [] then orders
    else
      orders.map (fun o =>
        let order_revenue :=
          ((orders.filter (fun o2 => o2.external_order_id = o.external_order_id)).map
            (fun o2 => o2.revenue_base)).sum
        let refund := RefundAdjustment.refund_by_order refunds config store_id o.external_order_id
        let refund_share :=
          if 0 < order_revenue then o.revenue_base / order_revenue * refund else 0
        { o with revenue_base := max 0 (o.revenue_base - refund_share) })

/-- The per-store raw-to-canonical SKU dict built by
`SKUDeduplicator._load_mapping` of `stages/dedup.py`. -/
def SKUDeduplicator.load_mapping (mappings : List SKUMapping) (store_id : String) :
    List (String × String) :=
  (mappings.filter (fun m => m.store_id = store_id)).map (fun m => (m.sku_raw, m.canonical_sku))

/-- `SKUDeduplicator.transform`: resolves `sku_raw` through the mapping,
passing unmapped SKUs through unchanged. -/
def SKUDeduplicator.transform (mappings : List SKUMapping) (store_id : String)
    (orders : List CurOrder) : List DedupOrder :=
  let mapping := SKUDeduplicator.load_mapping mappings store_id
  orders.map (fun o =>
    { toCurOrder := o, canonical_sku := (mapping.lookup o.sku_raw).getD o.sku_raw })

/-- The grouping key of `stages/rollups.py`: (store, canonical SKU, category
filled to the empty string, series date). -/
def rollKey (o : DedupOrder) : String × String × String × Int :=
  (o.store_id, o.canonical_sku, o.category.getD "", o.series_date)

/-- `VariantRollup.transform` of `stages/rollups.py`: one output row per
distinct `rollKey` with summed quantity and revenue; fresh rows carry
`is_interpolated = is_outlier_adjusted = false`, and an empty-string category
is replaced by `None`. -/
def VariantRollup.transform (orders : List DedupOrder) : List SeriesRow :=
  match orders with
  | [] => []
  | _ :: _ =>
    ((orders.map rollKey).dedup).map (fun k =>
      let grp := orders.filter (fun o => rollKey o = k)
      { store_id := k.1
        sku_id := k.2.1
        category_id := if k.2.2.1 = "" then none else some k.2.2.1
        series_date := k.2.2.2
        quantity := (grp.map (fun o => o.quantity)).sum
        revenue := (grp.map (fun o => o.revenue_base)).sum
        is_interpolated := false
        is_outlier_adjusted := false })

/-- Floor of a rational, computable: numerator divided (Euclidean) by the
positive denominator. -/
def ratFloor (q : ℚ) : Int := q.num / q.den

/-- Linear-interpolation quantile as computed by `Series.quantile` in
`stages/outliers.py` (pandas' default `interpolation='linear'`): with the
values sorted ascending and `pos = p * (n - 1)`, the value is
`s[⌊pos⌋] + (pos - ⌊pos⌋) * (s[⌊pos⌋ + 1] - s[⌊pos⌋])` (the upper index
clipped to the last element). -/
def quantile (xs : List ℚ) (p : ℚ) : ℚ :=
  let s := xs.insertionSort (fun a b => a ≤ b)
  let n := s.length
  if n = 0 then 0
  else
    let pos : ℚ := p * ((n : ℚ) - 1)
    let i : Nat := (ratFloor pos).toNat
    let lo := s.getD i 0
    let hi := s.getD (min (i + 1) (n - 1)) 0
    lo + (pos - (ratFloor pos : ℚ)) * (hi - lo)

/-- The outlier stage (`OutlierDetector` of `stages/outliers.py`). -/
structure OutlierDetector where
  strategy : String
  iqr_multiplier : ℚ

/-- One iteration of the per-column loop of `OutlierDetector.transform`:
computes Q1/Q3/IQR of the column (read through `get`, written through `set`),
skips the column when IQR is 0, and otherwise caps (strategy `"cap"`) or
flags (any other strategy) the rows outside `[Q1 - k*IQR, Q3 + k*IQR]`. -/
def OutlierDetector.processColumn (self : OutlierDetector) (get : SeriesRow → ℚ)
    (set : SeriesRow → ℚ → SeriesRow) (series : List SeriesRow) : List SeriesRow :=
  let q1 := quantile (series.map get) (1/4)
  let q3 := quantile (series.map get) (3/4)
  let iqr := q3 - q1
  if iqr = 0 then series
  else
    let low := q1 - self.iqr_multiplier * iqr
    let high := q3 + self.iqr_multiplier * iqr
    if self.strategy = "cap" then
      series.map (fun r =>
        if get r < low ∨ high < get r then
          { set r (min (max (get r) low) high) with is_outlier_adjusted := true }
        else r)
    else
      series.map (fun r =>
        { r with is_outlier_adjusted :=
            r.is_outlier_adjusted || decide (get r < low ∨ high < get r) })

/-- `OutlierDetector.transform` of `stages/outliers.py`: identity for empty
input or strategy `"none"`; otherwise processes the `quantity` column and
then the `revenue` column of the resulting frame. -/
def OutlierDetector.transform (self : OutlierDetector) (series : List SeriesRow) :
    List SeriesRow :=
  if series = [] ∨ self.strategy = "none" then series
  else
    let s1 := self.processColumn (fun r => r.quantity) (fun r v => { r with quantity := v }) series
    self.processColumn (fun r => r.revenue) (fun r v => { r with revenue := v }) s1

/-- The gap-interpolation stage (`MissingDataInterpolator` of
`stages/interpolation.py`).  The `method` field is stored by `__init__` but,
as in the source, never read by `transform`. -/
structure MissingDataInterpolator where
  method : String

/-- Contiguous day range `[lo, lo+1, ..., hi]`, as `pd.date_range(min_date,
max_date, freq="D")`. -/
def dateRange (lo hi : Int) : List Int :=
  (List.range (hi + 1 - lo).toNat).map (fun i : Nat => lo + (i : Int))

/-- The row emitted by `MissingDataInterpolator.transform` for one
`(store, sku)` group and one day of the full range: the first group row on
that day passed through (quantity, revenue and both flags preserved), or a
zero-filled row with `is_interpolated = true` when the day is missing. -/
def interpRow (sub : List SeriesRow) (sid sku : String) (cat : Option String) (d : Int) :
    SeriesRow :=
  match sub.find? (fun r => r.series_date = d) with
  | some r0 =>
    { store_id := sid, sku_id := sku, category_id := cat, series_date := d
      quantity := r0.quantity, revenue := r0.revenue
      is_interpolated := r0.is_interpolated, is_outlier_adjusted := r0.is_outlier_adjusted }
  | none =>
    { store_id := sid, sku_id := sku, category_id := cat, series_date := d
      quantity := 0, revenue := 0
      is_interpolated := true, is_outlier_adjusted := false }

/-- `MissingDataInterpolator.transform` of `stages/interpolation.py`: for
every distinct `(store_id, sku_id)` and every day of the contiguous range
from the global minimum to the global maximum `series_date`, emit the
existing row (first match) or a zero fill; the group's category is its first
non-null `category_id` (pandas `agg` with `"first"`). -/
def MissingDataInterpolator.transform (_self : MissingDataInterpolator)
    (series : List SeriesRow) : List SeriesRow :=
  match series with
  | [] => []
  | s0 :: _ =>
    let dates := series.map (fun r => r.series_date)
    let min_date := dates.foldl min s0.series_date
    let max_date := dates.foldl max s0.series_date
    let keys := (series.map (fun r => (r.store_id, r.sku_id))).dedup
    keys.flatMap (fun k =>
      let sub := series.filter (fun r => r.store_id = k.1 ∧ r.sku_id = k.2)
      let cat := (sub.find? (fun r => r.category_id.isSome)).bind (fun r => r.category_id)
      (dateRange min_date max_date).map (fun d => interpRow sub k.1 k.2 cat d))

/-- An inventory item (`InventoryItemDB` of `src/db/models.py`; the fields
relevant to the forecast runner, with `predicted_demand_30d` nullable). -/
structure InventoryItemDB where
  public_id : String
  sku : String
  product_name : String
  current_stock : Int
  predicted_demand_30d : Option ℚ
  reorder_point : Option Int
  store_id : Option String
deriving DecidableEq

/-- The persistent state visible to a pipeline or forecast run: the tables
read and written by `src/pipeline/runner.py` and `src/core/forecast/runner.py`. -/
structure DBState where
  raw_orders : List RawOrder
  raw_refunds : List RawRefund
  sku_mappings : List SKUMapping
  normalized : List SeriesRow
  inventory : List InventoryItemDB
deriving DecidableEq

/-- The result dict returned by `PipelineRunner.run` (stage row counts are
dropped; `error` mirrors the `error` key). -/
structure RunResult where
  store_id : String
  output_rows : Nat
  error : Option String
deriving DecidableEq

/-- `get_session` of `src/db/session.py`: runs the body on the current state;
on success the pending changes are committed (the returned state), on an
exception everything is rolled back (the original state) and the exception
re-raised. -/
def get_session {α : Type} (db : DBState) (body : DBState → Except String (α × DBState)) :
    Except String α × DBState :=
  match body db with
  | Except.ok (a, db2) => (Except.ok a, db2)
  | Except.error e => (Except.error e, db)

/-- `PipelineRunner._load_raw_orders`: the store's raw order rows. -/
def PipelineRunner.load_raw_orders (db : DBState) (store_id : String) : List RawOrder :=
  db.raw_orders.filter (fun o => o.store_id = store_id)

/-- The stage chain of `PipelineRunner.run` (steps 1-7): timezone, currency,
refund adjustment, SKU dedup, variant rollup, outlier detection (IQR
multiplier 1.5, the constructor default used by the runner), gap
interpolation. -/
def PipelineRunner.stages (config : PipelineConfig) (outlier_strategy interpolation_method : String)
    (db : DBState) (store_id : String) (orders : List RawOrder) : List SeriesRow :=
  let orders1 := (TimezoneNormalizer.mk config.timezone).transform orders
  let orders2 := CurrencyNormalizer.transform config orders1
  let orders3 := RefundAdjustment.transform db.raw_refunds config orders2
  let orders4 := SKUDeduplicator.transform db.sku_mappings store_id orders3
  let series5 := VariantRollup.transform orders4
  let series6 := (OutlierDetector.mk outlier_strategy (3/2)).transform series5
  (MissingDataInterpolator.mk interpolation_method).transform series6

/-- The body of `PipelineRunner.run` inside its `get_session` block,
parameterised over the stage computation (which, as in Python, may raise):
empty raw-order load short-circuits with a zero summary; otherwise the
stage output replaces the store's `NormalizedSeries` rows — delete of the
store's existing rows, then insert of the new set, both pending in the same
session. -/
def PipelineRunner.runBody (store_id : String)
    (stageComp : DBState → List RawOrder → Except String (List SeriesRow))
    (db : DBState) : Except String (RunResult × DBState) :=
  let orders := PipelineRunner.load_raw_orders db store_id
  if orders = [] then Except.ok ({ store_id := store_id, output_rows := 0, error := none }, db)
  else
    match stageComp db orders with
    | Except.error e => Except.error e
    | Except.ok series =>
      let remaining := db.normalized.filter (fun r => ¬ r.store_id = store_id)
      Except.ok ({ store_id := store_id, output_rows := series.length, error := none },
        { db with normalized := remaining ++ series })

/-- `PipelineRunner.run`, parameterised over the stage computation: the body
wrapped in `get_session` (commit on success, rollback and re-raise on any
exception). -/
def PipelineRunner.run (store_id : String)
    (stageComp : DBState → List RawOrder → Except String (List SeriesRow))
    (db : DBState) : Except String RunResult × DBState :=
  get_session db (PipelineRunner.runBody store_id stageComp)

/-- `PipelineRunner.run` with the concrete stage chain of the source (which,
in this typed embedding, always succeeds). -/
def PipelineRunner.runPipeline (config : PipelineConfig)
    (outlier_strategy interpolation_method : String) (store_id : String) (db : DBState) :
    Except String RunResult × DBState :=
  PipelineRunner.run store_id
    (fun db0 orders =>
      Except.ok (PipelineRunner.stages config outlier_strategy interpolation_method db0
        store_id orders))
    db

/-- One day of a SKU's normalized history, as loaded by `_load_history` of
`src/core/forecast/runner.py`. -/
structure HistRow where
  series_date : Int
  quantity : ℚ
  revenue : ℚ
deriving DecidableEq

/-- A forecast result (`ForecastResult` of `src/core/forecast/base.py`).
`forecast_date` (wall clock) and the confidence bounds (computed with a
floating-point square root) are not modelled. -/
structure FcResult where
  sku : String
  store_id : String
  horizon_days : Nat
  predicted_demand : ℚ
  predicted_revenue : ℚ
  provider : String
  days_of_history : Nat
deriving DecidableEq

/-- The run summary (`ForecastRunSummary` of `src/core/forecast/base.py`). -/
structure ForecastRunSummary where
  store_id : String
  skus_forecasted : Nat
  skus_skipped : Nat
  provider : String
  errors : List String
deriving DecidableEq

/-- Round half to even at the given power of ten, as Python's built-in
`round(x, ndigits)` behaves on exactly representable values. -/
def roundHalfEven (x : ℚ) : Int :=
  let f := ratFloor x
  let frac := x - (f : ℚ)
  if frac < 1/2 then f
  else if 1/2 < frac then f + 1
  else if f % 2 = 0 then f else f + 1

/-- Python `round(x, 1)`. -/
def pyRound1 (x : ℚ) : ℚ := (roundHalfEven (10 * x) : ℚ) / 10

/-- Python `round(x, 2)`. -/
def pyRound2 (x : ℚ) : ℚ := (roundHalfEven (100 * x) : ℚ) / 100

/-- `SimpleProvider.min_history_days` of `src/core/forecast/simple.py`. -/
def SimpleProvider.min_history_days : Nat := 7

/-- `SimpleProvider._empty_result`: the zero forecast tagged
`"simple/no_data"`. -/
def SimpleProvider.empty_result (store_id sku : String) (horizon_days days : Nat) : FcResult :=
  { sku := sku, store_id := store_id, horizon_days := horizon_days
    predicted_demand := 0, predicted_revenue := 0
    provider := "simple/no_data", days_of_history := days }

/-- `SimpleProvider._weighted_moving_average`: daily average of the
quantities under exponentially growing weights `2^i`, times the horizon,
floored at 0; revenue estimate from average revenue per unit. -/
def SimpleProvider.weighted_moving_average (store_id sku : String) (history : List HistRow)
    (horizon_days : Nat) : FcResult :=
  let quantities := history.map (fun r => r.quantity)
  let n := quantities.length
  let weights := (List.range n).map (fun i => (2 : ℚ) ^ i)
  let daily_avg := (((weights.zip quantities).map (fun p => p.1 * p.2)).sum) / weights.sum
  let predicted_demand := max 0 (daily_avg * horizon_days)
  let avg_rev_per_unit :=
    if 0 < (history.map (fun r => r.quantity)).sum then
      (history.map (fun r => r.revenue)).sum / (history.map (fun r => r.quantity)).sum
    else 0
  { sku := sku, store_id := store_id, horizon_days := horizon_days
    predicted_demand := pyRound1 predicted_demand
    predicted_revenue := pyRound2 (predicted_demand * avg_rev_per_unit)
    provider := "simple/wma", days_of_history := n }

/-- `SimpleProvider.predict` of `src/core/forecast/simple.py`.  The
Holt-Winters branch calls into statsmodels, an external library; it is a
parameter `hw` returning `some` result or `none` for the caught exception
that falls back to the weighted moving average.  An empty history yields the
zero result; 14 or more days attempt Holt-Winters; everything else goes to
the weighted moving average. -/
def SimpleProvider.predict (hw : String → String → List HistRow → Nat → Option FcResult)
    (store_id sku : String) (history : List HistRow) (horizon_days : Nat) : FcResult :=
  let days := history.length
  if days = 0 then SimpleProvider.empty_result store_id sku horizon_days days
  else if 14 ≤ days then
    match hw store_id sku history horizon_days with
    | some r => r
    | none => SimpleProvider.weighted_moving_average store_id sku history horizon_days
  else SimpleProvider.weighted_moving_average store_id sku history horizon_days

/-- `MIN_HISTORY_AWS` of `src/core/forecast/runner.py`. -/
def MIN_HISTORY_AWS : Nat := 14

/-- Accumulated outcome of the per-SKU fallback loop of `run_forecasts`. -/
structure LoopOut where
  results : List FcResult
  forecasted : Nat
  skipped : Nat
  errors : List String
deriving DecidableEq

/-- The fallback loop of `run_forecasts` (`src/core/forecast/runner.py`,
"Fallback for short-history SKUs"): SKUs with fewer than
`SimpleProvider.min_history_days` days are skipped; otherwise the simple
provider is called, a success is collected and counted, and a failure is
recorded as `"{sku}: {e}"` without aborting the loop.  The simple call is a
parameter so that its failures (caught by `except` in the source) remain
representable. -/
def simpleFallbackLoop (simple : String → String → List HistRow → Nat → Except String FcResult)
    (store_id : String) (horizon_days : Nat) :
    List (String × List HistRow) → LoopOut
  | [] => { results := [], forecasted := 0, skipped := 0, errors := [] }
  | (sku, df) :: rest =>
    if df.length < SimpleProvider.min_history_days then
      let out := simpleFallbackLoop simple store_id horizon_days rest
      { out with skipped := out.skipped + 1 }
    else
      match simple store_id sku df horizon_days with
      | Except.ok r =>
        let out := simpleFallbackLoop simple store_id horizon_days rest
        { out with results := r :: out.results, forecasted := out.forecasted + 1 }
      | Except.error e =>
        let out := simpleFallbackLoop simple store_id horizon_days rest
        { out with errors := (sku ++ ": " ++ e) :: out.errors }

/-- `run_forecasts` of `src/core/forecast/runner.py`, on the
`AWSForecastProvider` branch (the path the managed-service claims are
about).  `bulk` is the provider's `predict_bulk` (an external service call,
which may raise); `simple` is the `SimpleProvider.predict` call of the
fallback loop.  Eligible SKUs (≥ `MIN_HISTORY_AWS` days) go through one bulk
call; if it raises, its message is appended to the errors and every eligible
SKU is merged back into the fallback set; the fallback loop then runs the
simple provider per SKU.  Returns the summary and the collected results
(step 4, persisting results and updating inventory, is modelled by
`updateInventoryAll` below). -/
def run_forecasts (bulk : String → List (String × List HistRow) → Nat → Except String (List FcResult))
    (simple : String → String → List HistRow → Nat → Except String FcResult)
    (store_id : String) (all_history : List (String × List HistRow)) (horizon_days : Nat) :
    ForecastRunSummary × List FcResult :=
  if all_history = [] then
    ({ store_id := store_id, skus_forecasted := 0, skus_skipped := 0
       provider := "amazon_forecast", errors := [] }, [])
  else
    let aws_eligible := all_history.filter (fun p => MIN_HISTORY_AWS ≤ p.2.length)
    let fallback_skus := all_history.filter (fun p => p.2.length < MIN_HISTORY_AWS)
    let bulkOut :=
      if aws_eligible = [] then (([] : List FcResult), 0, ([] : List String), fallback_skus)
      else
        match bulk store_id aws_eligible horizon_days with
        | Except.ok aws_results => (aws_results, aws_results.length, [], fallback_skus)
        | Except.error e => ([], 0, [toString e], fallback_skus ++ aws_eligible)
    let loop := simpleFallbackLoop simple store_id horizon_days bulkOut.2.2.2
    ({ store_id := store_id
       skus_forecasted := bulkOut.2.1 + loop.forecasted
       skus_skipped := loop.skipped
       provider := "amazon_forecast"
       errors := bulkOut.2.2.1 ++ loop.errors },
     bulkOut.1 ++ loop.results)

/-- `_update_inventory_demand` of `src/core/forecast/runner.py`: the first
inventory item whose `sku` matches (the query filters on `sku` only — the
`store_id` argument is accepted but unused, exactly as in the source) gets
`predicted_demand_30d` set; nothing else changes. -/
def update_inventory_demand (inventory : List InventoryItemDB) (_store_id sku : String)
    (demand : ℚ) : List InventoryItemDB :=
  match inventory with
  | [] => []
  | item :: rest =>
    if item.sku = sku then { item with predicted_demand_30d := some demand } :: rest
    else item :: update_inventory_demand rest _store_id sku demand

/-- The (store, SKU, date) key of a normalized series row — the uniqueness
key of the `NormalizedSeriesPoint` invariant. -/
def seriesKey3 (r : SeriesRow) : String × String × Int :=
  (r.store_id, r.sku_id, r.series_date)

/-- Every field of a series row except `is_outlier_adjusted` — what the
`"flag"` outlier strategy must leave unchanged. -/
def nonFlagFields (r : SeriesRow) : String × String × Option String × Int × ℚ × ℚ × Bool :=
  (r.store_id, r.sku_id, r.category_id, r.series_date, r.quantity, r.revenue, r.is_interpolated)

/-- Interquartile range of a column, as in `stages/outliers.py`. -/
def iqrOf (xs : List ℚ) : ℚ := quantile xs (3/4) - quantile xs (1/4)

/-- Lower outlier bound `Q1 - 1.5*IQR` over a column. -/
def capLow (xs : List ℚ) : ℚ := quantile xs (1/4) - 3/2 * iqrOf xs

/-- Upper outlier bound `Q3 + 1.5*IQR` over a column. -/
def capHigh (xs : List ℚ) : ℚ := quantile xs (3/4) + 3/2 * iqrOf xs

/-- The canonical SKU a raw order line resolves to through the store's
mapping table (`stages/dedup.py` semantics). -/
def canonicalSku (mappings : List SKUMapping) (store_id : String) (o : RawOrder) : String :=
  (((SKUDeduplicator.load_mapping mappings store_id).lookup o.sku_raw)).getD o.sku_raw

/-- The order lines of one `external_order_id` within a frame. -/
def orderLines (orders : List CurOrder) (oid : String) : List CurOrder :=
  orders.filter (fun o => o.external_order_id = oid)

/-- Total base-currency revenue of a set of order lines. -/
def revenueSum (lines : List CurOrder) : ℚ :=
  (lines.map (fun o => o.revenue_base)).sum

/-- The SKUs of a forecast run eligible for the managed-service bulk call:
at least `MIN_HISTORY_AWS` days of history. -/
def awsEligible (all_history : List (String × List HistRow)) : List (String × List HistRow) :=
  all_history.filter (fun p => MIN_HISTORY_AWS ≤ p.2.length)

/-- The fallback set after a failed bulk call: the short-history SKUs with
every eligible SKU merged back in. -/
def awsFallback (all_history : List (String × List HistRow)) : List (String × List HistRow) :=
  all_history.filter (fun p => p.2.length < MIN_HISTORY_AWS) ++ awsEligible all_history

/-- A bulk provider that always raises, for exercising the fallback path. -/
def bulkFailW : String → List (String × List HistRow) → Nat → Except String (List FcResult) :=
  fun _ _ _ => Except.error "bulk boom"

/-- A simple provider call that always succeeds, for exercising the fallback
path. -/
def simpleOkW : String → String → List HistRow → Nat → Except String FcResult :=
  fun store_id sku df horizon_days =>
    Except.ok
      { sku := sku, store_id := store_id, horizon_days := horizon_days
        predicted_demand := 1, predicted_revenue := 1
        provider := "simple/wma", days_of_history := df.length }

/-- Three SKUs with 14 days of history each: all eligible for the bulk call. -/
def allHistW : List (String × List HistRow) :=
  [("SKU-A", (List.range 14).map (fun i => { series_date := (i : Int), quantity := 1, revenue := 1 })),
   ("SKU-B", (List.range 14).map (fun i => { series_date := (i : Int), quantity := 1, revenue := 1 })),
   ("SKU-C", (List.range 14).map (fun i => { series_date := (i : Int), quantity := 1, revenue := 1 }))]

/-- The minimum of a list of day numbers, seeded (as `Series.min()` over a
non-empty column) with its first entry. -/
def listMinD (l : List Int) : Int := l.foldl min (l.headD 0)

/-- The maximum of a list of day numbers. -/
def listMaxD (l : List Int) : Int := l.foldl max (l.headD 0)

/-- The deduplicated `(store_id, sku_id)` group keys of the interpolation
stage. -/
def interpKeys (series : List SeriesRow) : List (String × String) :=
  (series.map (fun r => (r.store_id, r.sku_id))).dedup

/-- One group's rows inside the interpolation stage. -/
def interpSub (series : List SeriesRow) (k : String × String) : List SeriesRow :=
  series.filter (fun r => r.store_id = k.1 ∧ r.sku_id = k.2)

/-- One group's category: its first non-null `category_id`. -/
def interpCat (series : List SeriesRow) (k : String × String) : Option String :=
  ((interpSub series k).find? (fun r => r.category_id.isSome)).bind (fun r => r.category_id)

/-- The persisted normalized series of one store. -/
def storeSeries (db : DBState) (store_id : String) : List SeriesRow :=
  db.normalized.filter (fun r => r.store_id = store_id)

/-- The store's persisted normalized series after a full pipeline run. -/
def pipelineOut (config : PipelineConfig) (outlier_strategy interpolation_method store_id : String)
    (db : DBState) : List SeriesRow :=
  storeSeries
    (PipelineRunner.runPipeline config outlier_strategy interpolation_method store_id db).2
    store_id

/-- A store configuration with base currency USD, for concrete runs. -/
def configW : PipelineConfig :=
  { store_id := "s1", timezone := "UTC", base_currency := "USD", exchange_rates := [("USD", 1)] }

/-- Two currency-normalized lines of one order: revenues 10 and 30. -/
def ordersW : List CurOrder :=
  [{ store_id := "s1", external_order_id := "o1", external_line_id := none
     sku_raw := "SKU-A", product_id := none, variant_id := none
     quantity := 1, unit_price := 10, currency := "USD"
     order_date_utc := { utcDay := 0, secondOfDay := 0 }, category := none
     series_date := 0, revenue_base := 10 },
   { store_id := "s1", external_order_id := "o1", external_line_id := none
     sku_raw := "SKU-B", product_id := none, variant_id := none
     quantity := 1, unit_price := 30, currency := "USD"
     order_date_utc := { utcDay := 0, secondOfDay := 0 }, category := none
     series_date := 0, revenue_base := 30 }]

/-- A 20 USD refund against that order. -/
def refundsW : List RawRefund :=
  [{ store_id := "s1", external_order_id := "o1", amount := 20, currency := "USD" }]

/-- A two-point series with distinct quantity and revenue values (nonzero
IQR in both columns), for concrete outlier runs. -/
def seriesW : List SeriesRow :=
  [{ store_id := "s1", sku_id := "SKU-A", category_id := none, series_date := 0
     quantity := 0, revenue := 0, is_interpolated := false, is_outlier_adjusted := false },
   { store_id := "s1", sku_id := "SKU-A", category_id := none, series_date := 1
     quantity := 10, revenue := 10, is_interpolated := false, is_outlier_adjusted := false }]

/-- Two rolled-up rows sharing (store, SKU, date) across two categories. -/
def interpDupW : List SeriesRow :=
  [{ store_id := "s1", sku_id := "SKU-A", category_id := some "catA", series_date := 0
     quantity := 1, revenue := 1, is_interpolated := false, is_outlier_adjusted := false },
   { store_id := "s1", sku_id := "SKU-A", category_id := some "catB", series_date := 0
     quantity := 2, revenue := 2, is_interpolated := false, is_outlier_adjusted := false }]

/-- A stage computation that raises, for exercising the rollback path. -/
def stageFailW : DBState → List RawOrder → Except String (List SeriesRow) :=
  fun _ _ => Except.error "stage failed"

/-- A one-order, one-row database state for the runner theorems. -/
def dbW : DBState :=
  { raw_orders :=
      [{ store_id := "s1", external_order_id := "o1", external_line_id := none
         sku_raw := "SKU-A", product_id := none, variant_id := none
         quantity := 2, unit_price := 10, currency := "USD"
         order_date_utc := { utcDay := 0, secondOfDay := 0 }, category := none }]
    raw_refunds := []
    sku_mappings := []
    normalized :=
      [{ store_id := "s1", sku_id := "SKU-A", category_id := none, series_date := 0
         quantity := 5, revenue := 50, is_interpolated := false, is_outlier_adjusted := false }]
    inventory := [] }

/-- Executable floor agrees with the mathematical floor on `ℚ`. -/
theorem ratFloor_eq_floor (q : ℚ) : ratFloor q = ⌊q⌋ := (Rat.floor_def).symm

/-- C7: the Gap Interpolation stage behaves identically when constructed
with `method = "linear"` and with `method = "zero"`: the stored `method`
parameter is never read by `transform`, so only zero-fill is performed
regardless of its value. -/
theorem interpolation_method_irrelevant :
    ∀ series : List SeriesRow,
      (MissingDataInterpolator.mk "linear").transform series =
        (MissingDataInterpolator.mk "zero").transform series :=
  fun _ => rfl

/-- C9: for every order line the Currency Stage sets `revenue_base` to
`quantity * unit_price * rate` when the (upper-cased) currency has an entry
in the store's exchange-rate table, with rate 1 when the currency equals the
base currency, and to `quantity * unit_price` — a silent 1:1 passthrough —
when the currency has no entry. -/
theorem currency_conversion_rates :
    ∀ (config : PipelineConfig) (orders : List TzOrder),
      List.Forall₂ (fun (o : TzOrder) (o2 : CurOrder) =>
        o2.toTzOrder = o ∧
        (o.currency = config.base_currency →
          o2.revenue_base = o.quantity * o.unit_price * 1) ∧
        (¬ o.currency = config.base_currency →
          ∀ rate, config.exchange_rates.lookup o.currency.toUpper = some rate →
            o2.revenue_base = o.quantity * o.unit_price * rate) ∧
        (¬ o.currency = config.base_currency →
          config.exchange_rates.lookup o.currency.toUpper = none →
          o2.revenue_base = o.quantity * o.unit_price))
        orders (CurrencyNormalizer.transform config orders) := by
  intro config orders
  rw [CurrencyNormalizer.transform, List.forall₂_map_right_iff]
  rw [List.forall₂_same]
  intro o _
  refine ⟨rfl, ?_, ?_, ?_⟩
  · intro hbase
    simp [PipelineConfig.to_base_currency, hbase]
  · intro hbase rate hrate
    simp [PipelineConfig.to_base_currency, hbase, hrate]
  · intro hbase hrate
    simp [PipelineConfig.to_base_currency, hbase, hrate]

/-- C10: the projected-demand update selects the inventory item by SKU
alone: the result does not depend on the `store_id` argument, an inventory
with no matching SKU is unchanged, and when a first SKU match exists (at any
store) exactly that item is rewritten, only in `predicted_demand_30d`, with
every other item untouched. -/
theorem inventory_update_by_sku_only :
    ∀ (inventory : List InventoryItemDB) (store_id store_id2 sku : String) (demand : ℚ),
      update_inventory_demand inventory store_id sku demand =
        update_inventory_demand inventory store_id2 sku demand ∧
      ((∀ item ∈ inventory, ¬ item.sku = sku) →
        update_inventory_demand inventory store_id sku demand = inventory) ∧
      (∀ (pre : List InventoryItemDB) (item : InventoryItemDB) (post : List InventoryItemDB),
        inventory = pre ++ item :: post →
        (∀ x ∈ pre, ¬ x.sku = sku) →
        item.sku = sku →
        update_inventory_demand inventory store_id sku demand =
          pre ++ { item with predicted_demand_30d := some demand } :: post) := by
  intro inventory store_id store_id2 sku demand
  refine ⟨?_, ?_, ?_⟩
  · induction inventory with
    | nil => rfl
    | cons item rest ih =>
      by_cases h : item.sku = sku
      · simp [update_inventory_demand, h]
      · simp [update_inventory_demand, h, ih]
  · induction inventory with
    | nil => intro _; rfl
    | cons item rest ih =>
      intro hnone
      have hitem : ¬ item.sku = sku := hnone item (by simp)
      have hrest : ∀ x ∈ rest, ¬ x.sku = sku := fun x hx => hnone x (by simp [hx])
      simp [update_inventory_demand, hitem, ih hrest]
  · intro pre
    induction pre generalizing inventory with
    | nil =>
      intro item post hsplit _ hmatch
      subst hsplit
      simp [update_inventory_demand, hmatch]
    | cons x xs ih =>
      intro item post hsplit hpre hmatch
      subst hsplit
      have hx : ¬ x.sku = sku := hpre x (by simp)
      have hxs : ∀ y ∈ xs, ¬ y.sku = sku := fun y hy => hpre y (by simp [hy])
      simp only [List.cons_append, update_inventory_demand, if_neg hx, List.append_eq]
      rw [ih (xs ++ item :: post) item post rfl hxs hmatch]

/-- Witness for C10: two stores share the SKU `"SHARED"`; a forecast run for
`"storeA"` updates the demand on `"storeB"`'s item because it comes first. -/
theorem inventory_update_by_sku_only_witness :
    update_inventory_demand
      [{ public_id := "pb", sku := "SHARED", product_name := "b", current_stock := 3
         predicted_demand_30d := none, reorder_point := none, store_id := some "storeB" },
       { public_id := "pa", sku := "SHARED", product_name := "a", current_stock := 4
         predicted_demand_30d := none, reorder_point := none, store_id := some "storeA" }]
      "storeA" "SHARED" 5 =
      [{ public_id := "pb", sku := "SHARED", product_name := "b", current_stock := 3
         predicted_demand_30d := some 5, reorder_point := none, store_id := some "storeB" },
       { public_id := "pa", sku := "SHARED", product_name := "a", current_stock := 4
         predicted_demand_30d := none, reorder_point := none, store_id := some "storeA" }] := by
  have h := (inventory_update_by_sku_only
    [{ public_id := "pb", sku := "SHARED", product_name := "b", current_stock := 3
       predicted_demand_30d := none, reorder_point := none, store_id := some "storeB" },
     { public_id := "pa", sku := "SHARED", product_name := "a", current_stock := 4
       predicted_demand_30d := none, reorder_point := none, store_id := some "storeA" }]
    "storeA" "storeZ" "SHARED" 5).2.2 []
    { public_id := "pb", sku := "SHARED", product_name := "b", current_stock := 3
      predicted_demand_30d := none, reorder_point := none, store_id := some "storeB" }
    [{ public_id := "pa", sku := "SHARED", product_name := "a", current_stock := 4
       predicted_demand_30d := none, reorder_point := none, store_id := some "storeA" }]
    rfl (by intro x hx; cases hx) rfl
  simpa using h

/-- C3: any exception in any stage aborts the run with the stored series
exactly as before (rollback, no row deleted or inserted), while a successful
run either short-circuits on an empty raw-order load (state unchanged) or
commits the delete of the store's rows and the insert of the full stage
output as one atomic state change. -/
theorem run_atomic_persistence :
    ∀ (store_id : String)
      (stageComp : DBState → List RawOrder → Except String (List SeriesRow)) (db : DBState),
      (∀ e, (PipelineRunner.run store_id stageComp db).1 = Except.error e →
        (PipelineRunner.run store_id stageComp db).2 = db) ∧
      (∀ res, (PipelineRunner.run store_id stageComp db).1 = Except.ok res →
        (PipelineRunner.load_raw_orders db store_id = [] ∧
          (PipelineRunner.run store_id stageComp db).2 = db) ∨
        (∃ series, stageComp db (PipelineRunner.load_raw_orders db store_id) = Except.ok series ∧
          (PipelineRunner.run store_id stageComp db).2 =
            { db with normalized :=
                db.normalized.filter (fun r => ¬ r.store_id = store_id) ++ series })) := by
  intro store_id stageComp db
  unfold PipelineRunner.run get_session PipelineRunner.runBody
  by_cases hempty : PipelineRunner.load_raw_orders db store_id = []
  · simp [hempty]
  · cases hstage : stageComp db (PipelineRunner.load_raw_orders db store_id) with
    | error e => simp [hempty, hstage]
    | ok series =>
      refine ⟨?_, ?_⟩
      · intro e he
        simp [hempty, hstage] at he
      · intro res _
        right
        exact ⟨series, rfl, by simp [hempty, hstage]⟩

/-- Witness for C3: on `dbW` (one raw order, one stored row for `"s1"`) a
failing stage leaves the stored series exactly as it was. -/
theorem run_atomic_persistence_witness :
    (PipelineRunner.run "s1" stageFailW dbW).2 = dbW :=
  (run_atomic_persistence "s1" stageFailW dbW).1 "stage failed" (by rfl)

/-- Counterexample for C4 as stated: a 1-day history (more than zero, fewer
than 7 days) does not get a zero forecast from `SimpleProvider.predict` —
the weighted moving average is computed from the data (here 1 unit/day × 30
days = 30) and the result is tagged `"simple/wma"`, not `"simple/no_data"`. -/
theorem predict_short_history_counterexample :
    (0 : Nat) < ([{ series_date := 0, quantity := 1, revenue := 1 }] : List HistRow).length ∧
    ([{ series_date := 0, quantity := 1, revenue := 1 }] : List HistRow).length < 7 ∧
    ¬ ((SimpleProvider.predict (fun _ _ _ _ => none) "s1" "SKU-1"
        [{ series_date := 0, quantity := 1, revenue := 1 }] 30).predicted_demand = 0) ∧
    (SimpleProvider.predict (fun _ _ _ _ => none) "s1" "SKU-1"
        [{ series_date := 0, quantity := 1, revenue := 1 }] 30).provider = "simple/wma" := by
  have hval :
      (SimpleProvider.predict (fun _ _ _ _ => none) "s1" "SKU-1"
        [{ series_date := 0, quantity := 1, revenue := 1 }] 30).predicted_demand = 30 := by
    simp only [SimpleProvider.predict, SimpleProvider.weighted_moving_average,
      List.length_cons, List.length_nil, List.range_succ, List.range_zero, List.map,
      List.zip, List.zipWith, List.sum_cons, List.sum_nil]
    norm_num [pyRound1, roundHalfEven, ratFloor_eq_floor]
  refine ⟨by decide, by decide, ?_, by rfl⟩
  rw [hval]
  norm_num

/-- C4 (amended): `SimpleProvider.predict` returns the zero-forecast result
tagged `"simple/no_data"` only for an empty history; for a non-empty history
of fewer than 7 days (indeed fewer than 14) it returns the weighted moving
average computed from the data.  (The forecast runner separately skips SKUs
with fewer than `min_history_days = 7` days, so `predict` is not reached for
them in a run.) -/
theorem predict_short_history_wma :
    ∀ (hw : String → String → List HistRow → Nat → Option FcResult)
      (store_id sku : String) (history : List HistRow) (horizon_days : Nat),
      (history.length = 0 →
        SimpleProvider.predict hw store_id sku history horizon_days =
          SimpleProvider.empty_result store_id sku horizon_days 0) ∧
      (0 < history.length → history.length < 7 →
        SimpleProvider.predict hw store_id sku history horizon_days =
          SimpleProvider.weighted_moving_average store_id sku history horizon_days) := by
  intro hw store_id sku history horizon_days
  constructor
  · intro h0
    rw [SimpleProvider.predict, h0]
    simp
  · intro hpos h7
    have h0 : ¬ history.length = 0 := Nat.pos_iff_ne_zero.mp hpos
    have h14 : ¬ 14 ≤ history.length := by omega
    rw [SimpleProvider.predict]
    simp [h0, h14]

/-- Witness for C4 (amended): the 1-day history goes through the weighted
moving average. -/
theorem predict_short_history_wma_witness :
    SimpleProvider.predict (fun _ _ _ _ => none) "s1" "SKU-1"
        [{ series_date := 0, quantity := 1, revenue := 1 }] 30 =
      SimpleProvider.weighted_moving_average "s1" "SKU-1"
        [{ series_date := 0, quantity := 1, revenue := 1 }] 30 :=
  (predict_short_history_wma (fun _ _ _ _ => none) "s1" "SKU-1"
    [{ series_date := 0, quantity := 1, revenue := 1 }] 30).2 (by decide) (by decide)

/-- Every SKU of the fallback set with enough history is actually attempted:
a success lands in the collected results and a failure is recorded as
`"{sku}: {e}"` in the loop's error list. -/
theorem simpleFallbackLoop_attempts
    (simple : String → String → List HistRow → Nat → Except String FcResult)
    (store_id : String) (horizon_days : Nat) :
    ∀ (fallback : List (String × List HistRow)) (sku : String) (df : List HistRow),
      (sku, df) ∈ fallback →
      ¬ df.length < SimpleProvider.min_history_days →
      (∃ r, simple store_id sku df horizon_days = Except.ok r ∧
        r ∈ (simpleFallbackLoop simple store_id horizon_days fallback).results) ∨
      (∃ e, simple store_id sku df horizon_days = Except.error e ∧
        (sku ++ ": " ++ e) ∈ (simpleFallbackLoop simple store_id horizon_days fallback).errors) := by
  intro fallback
  induction fallback with
  | nil => intro sku df h; cases h
  | cons p rest ih =>
    intro sku df hmem hlen
    obtain ⟨sku0, df0⟩ := p
    rcases List.mem_cons.mp hmem with hhead | htail
    · rw [Prod.mk.injEq] at hhead
      obtain ⟨hs, hd⟩ := hhead
      subst hs; subst hd
      rw [simpleFallbackLoop, if_neg hlen]
      cases hcall : simple store_id sku df horizon_days with
      | ok r => exact Or.inl ⟨r, rfl, by simp⟩
      | error e => exact Or.inr ⟨e, rfl, by simp⟩
    · have hres := ih sku df htail hlen
      rw [simpleFallbackLoop]
      by_cases h0 : df0.length < SimpleProvider.min_history_days
      · rw [if_pos h0]
        simpa using hres
      · rw [if_neg h0]
        cases hcall : simple store_id sku0 df0 horizon_days with
        | ok r =>
          rcases hres with ⟨r2, hr2, hmem2⟩ | ⟨e2, he2, hmem2⟩
          · exact Or.inl ⟨r2, hr2, by simp [hmem2]⟩
          · exact Or.inr ⟨e2, he2, by simpa using hmem2⟩
        | error e =>
          rcases hres with ⟨r2, hr2, hmem2⟩ | ⟨e2, he2, hmem2⟩
          · exact Or.inl ⟨r2, hr2, by simpa using hmem2⟩
          · exact Or.inr ⟨e2, he2, by simp [hmem2]⟩

/-- The loop's forecast tally counts exactly the fallback SKUs with enough
history whose simple call succeeds. -/
theorem simpleFallbackLoop_forecasted
    (simple : String → String → List HistRow → Nat → Except String FcResult)
    (store_id : String) (horizon_days : Nat) :
    ∀ fallback : List (String × List HistRow),
      (simpleFallbackLoop simple store_id horizon_days fallback).forecasted =
        fallback.countP (fun p =>
          decide (SimpleProvider.min_history_days ≤ p.2.length) &&
            (simple store_id p.1 p.2 horizon_days).isOk) := by
  intro fallback
  induction fallback with
  | nil => rfl
  | cons p rest ih =>
    obtain ⟨sku0, df0⟩ := p
    rw [simpleFallbackLoop]
    by_cases h0 : df0.length < SimpleProvider.min_history_days
    · rw [if_pos h0, List.countP_cons]
      have : ¬ SimpleProvider.min_history_days ≤ df0.length := by omega
      simp [this, ih]
    · rw [if_neg h0, List.countP_cons]
      have hle : SimpleProvider.min_history_days ≤ df0.length := by omega
      cases hcall : simple store_id sku0 df0 horizon_days with
      | ok r => simp [hle, hcall, Except.isOk, Except.toBool, ih]
      | error e => simp [hle, hcall, Except.isOk, Except.toBool, ih]

/-- C5: when the managed-service bulk call raises, the run is not aborted:
exactly one entry (the bulk failure, first) heads the summary's error list
followed by the per-SKU fallback errors, every SKU that was eligible for the
bulk call is retried through the Statistical Provider — each one either
contributes a result or a recorded per-SKU error, none is lost — and
`skus_forecasted` counts exactly the successful fallback calls. -/
theorem bulk_failure_fallback :
    ∀ (bulk : String → List (String × List HistRow) → Nat → Except String (List FcResult))
      (simple : String → String → List HistRow → Nat → Except String FcResult)
      (store_id : String) (all_history : List (String × List HistRow)) (horizon_days : Nat)
      (e : String),
      awsEligible all_history ≠ [] →
      bulk store_id (awsEligible all_history) horizon_days = Except.error e →
      (run_forecasts bulk simple store_id all_history horizon_days).1.errors =
        e :: (simpleFallbackLoop simple store_id horizon_days (awsFallback all_history)).errors ∧
      (run_forecasts bulk simple store_id all_history horizon_days).1.skus_forecasted =
        (awsFallback all_history).countP (fun p =>
          decide (SimpleProvider.min_history_days ≤ p.2.length) &&
            (simple store_id p.1 p.2 horizon_days).isOk) ∧
      (run_forecasts bulk simple store_id all_history horizon_days).2 =
        (simpleFallbackLoop simple store_id horizon_days (awsFallback all_history)).results ∧
      (∀ p ∈ awsEligible all_history,
        (∃ r, simple store_id p.1 p.2 horizon_days = Except.ok r ∧
          r ∈ (run_forecasts bulk simple store_id all_history horizon_days).2) ∨
        (∃ err, simple store_id p.1 p.2 horizon_days = Except.error err ∧
          (p.1 ++ ": " ++ err) ∈
            (run_forecasts bulk simple store_id all_history horizon_days).1.errors)) := by
  intro bulk simple store_id all_history horizon_days e helig hbulk
  have hne : ¬ all_history = [] := by
    intro h
    apply helig
    rw [h]
    rfl
  have helig2 : ¬ all_history.filter (fun p => MIN_HISTORY_AWS ≤ p.2.length) = [] := helig
  have hbulk2 :
      bulk store_id (all_history.filter (fun p => MIN_HISTORY_AWS ≤ p.2.length)) horizon_days =
        Except.error e := hbulk
  have hout :
      run_forecasts bulk simple store_id all_history horizon_days =
        ({ store_id := store_id
           skus_forecasted :=
             (simpleFallbackLoop simple store_id horizon_days (awsFallback all_history)).forecasted
           skus_skipped :=
             (simpleFallbackLoop simple store_id horizon_days (awsFallback all_history)).skipped
           provider := "amazon_forecast"
           errors :=
             e :: (simpleFallbackLoop simple store_id horizon_days (awsFallback all_history)).errors },
         (simpleFallbackLoop simple store_id horizon_days (awsFallback all_history)).results) := by
    simp only [run_forecasts, if_neg hne, if_neg helig2, hbulk2, awsFallback, awsEligible,
      Nat.zero_add, List.nil_append, List.singleton_append]
    rfl
  refine ⟨?_, ?_, ?_, ?_⟩
  · rw [hout]
  · rw [hout]
    exact simpleFallbackLoop_forecasted simple store_id horizon_days _
  · rw [hout]
  · intro p hp
    have hlen : MIN_HISTORY_AWS ≤ p.2.length := by
      have := List.mem_filter.mp hp
      exact of_decide_eq_true this.2
    have hnot : ¬ p.2.length < SimpleProvider.min_history_days := by
      rw [SimpleProvider.min_history_days]
      rw [MIN_HISTORY_AWS] at hlen
      omega
    have hmem : (p.1, p.2) ∈ awsFallback all_history := by
      apply List.mem_append_right
      simpa using hp
    have h := simpleFallbackLoop_attempts simple store_id horizon_days _ p.1 p.2 hmem hnot
    rw [hout]
    rcases h with ⟨r, hr, hrmem⟩ | ⟨err, herr, hemem⟩
    · exact Or.inl ⟨r, hr, hrmem⟩
    · exact Or.inr ⟨err, herr, List.mem_cons_of_mem _ hemem⟩

/-- Witness for C5: three eligible SKUs, a bulk call that raises
`"bulk boom"`, and an always-succeeding simple provider: the summary's error
list is exactly the bulk failure followed by no per-SKU errors. -/
theorem bulk_failure_fallback_witness :
    (run_forecasts bulkFailW simpleOkW "s1" allHistW 30).1.errors =
      "bulk boom" :: (simpleFallbackLoop simpleOkW "s1" 30 (awsFallback allHistW)).errors :=
  (bulk_failure_fallback bulkFailW simpleOkW "s1" allHistW 30 "bulk boom"
    (by decide) (by rfl)).1

/-- Proration algebra: clamped proportional reductions of nonnegative line
revenues summing to `R > 0` total `max 0 (R - F)`. -/
theorem prorated_sum (lines : List CurOrder) (R F : ℚ) (hR : 0 < R)
    (hnn : ∀ o ∈ lines, (0 : ℚ) ≤ o.revenue_base)
    (hsum : (lines.map (fun o => o.revenue_base)).sum = R) :
    (lines.map (fun o => max 0 (o.revenue_base - o.revenue_base / R * F))).sum =
      max 0 (R - F) := by
  have hRne : R ≠ 0 := ne_of_gt hR
  have key : ∀ x : ℚ, x - x / R * F = x * (1 - F / R) := by
    intro x
    rw [div_mul_eq_mul_div, mul_sub, mul_one, mul_div_assoc]
  by_cases hFR : F ≤ R
  · have hfac : (0 : ℚ) ≤ 1 - F / R := by
      have : F / R ≤ 1 := (div_le_one hR).2 hFR
      linarith
    have hcongr : lines.map (fun o => max 0 (o.revenue_base - o.revenue_base / R * F)) =
        lines.map (fun o => o.revenue_base * (1 - F / R)) := by
      apply List.map_congr_left
      intro o ho
      rw [key, max_eq_right (mul_nonneg (hnn o ho) hfac)]
    rw [hcongr, List.sum_map_mul_right, hsum]
    rw [mul_sub, mul_one, mul_comm R (F / R), div_mul_cancel₀ F hRne]
    rw [max_eq_right (sub_nonneg.2 hFR)]
  · have hRF : R < F := lt_of_not_le hFR
    have hfac : 1 - F / R ≤ 0 := by
      have : (1 : ℚ) ≤ F / R := (one_le_div hR).2 (le_of_lt hRF)
      linarith
    have hcongr : lines.map (fun o => max 0 (o.revenue_base - o.revenue_base / R * F)) =
        lines.map (fun _ => (0 : ℚ)) := by
      apply List.map_congr_left
      intro o ho
      rw [key, max_eq_left (mul_nonpos_iff.mpr (Or.inl ⟨hnn o ho, hfac⟩))]
    rw [hcongr]
    have hz : (lines.map (fun _ => (0 : ℚ))).sum = 0 := by simp
    rw [hz, max_eq_left (by linarith)]

/-- C2: for an order whose lines (all with nonnegative base revenue, as
produced by the currency stage) sum to `R > 0` with total refund `F`, the
post-refund line revenues sum to `max 0 (R - F)` and each line is reduced by
its proportional share `revenue / R * F` (clamped at 0); when `R ≤ 0` no
line of the order changes (the refund is dropped); and every post-refund
revenue is nonnegative. -/
theorem refund_proration :
    ∀ (refunds : List RawRefund) (config : PipelineConfig) (orders : List CurOrder)
      (oid : String),
      (∀ o ∈ orders, 0 ≤ o.revenue_base) →
      (0 < revenueSum (orderLines orders oid) →
        revenueSum (orderLines (RefundAdjustment.transform refunds config orders) oid) =
          max 0 (revenueSum (orderLines orders oid) -
            RefundAdjustment.refund_by_order refunds config (headStore orders) oid) ∧
        List.Forall₂ (fun (o o2 : CurOrder) => o2 =
            { o with revenue_base := max 0 (o.revenue_base -
                o.revenue_base / revenueSum (orderLines orders oid) *
                  RefundAdjustment.refund_by_order refunds config (headStore orders) oid) })
          (orderLines orders oid)
          (orderLines (RefundAdjustment.transform refunds config orders) oid)) ∧
      (revenueSum (orderLines orders oid) ≤ 0 →
        orderLines (RefundAdjustment.transform refunds config orders) oid =
          orderLines orders oid) ∧
      (∀ o ∈ RefundAdjustment.transform refunds config orders, 0 ≤ o.revenue_base) := by
  intro refunds config orders oid hnn
  match horders : orders with
  | [] =>
    refine ⟨?_, ?_, ?_⟩
    · intro hR
      simp [revenueSum, orderLines, RefundAdjustment.transform] at hR
    · intro _
      rfl
    · intro o ho
      simp [RefundAdjustment.transform] at ho
  | o0 :: rest =>
    by_cases href : refunds.filter (fun r => r.store_id = headStore (o0 :: rest)) = []
    · -- no refunds for the store: early return, transform is the identity
      have htr : RefundAdjustment.transform refunds config (o0 :: rest) = o0 :: rest := by
        rw [RefundAdjustment.transform]
        simp only [href]
        simp
      have hF :
          RefundAdjustment.refund_by_order refunds config (headStore (o0 :: rest)) oid = 0 := by
        rw [RefundAdjustment.refund_by_order, href]
        rfl
      rw [htr, hF]
      refine ⟨?_, fun _ => rfl, fun o ho => hnn o ho⟩
      intro hR
      constructor
      · rw [sub_zero, max_eq_right (le_of_lt hR)]
      · rw [List.forall₂_same]
        intro o ho
        have h0 : (0 : ℚ) ≤ o.revenue_base := hnn o (List.mem_filter.mp ho).1
        rw [mul_zero, sub_zero, max_eq_right h0]
    · -- proration branch: the transform maps every line
      obtain ⟨f, htr, hfid, hfpos, hfneg, hfnn⟩ :
          ∃ f : CurOrder → CurOrder,
            RefundAdjustment.transform refunds config (o0 :: rest) = (o0 :: rest).map f ∧
            (∀ o, (f o).external_order_id = o.external_order_id) ∧
            (∀ o, o.external_order_id = oid →
              0 < revenueSum (orderLines (o0 :: rest) oid) →
              f o = { o with revenue_base := max 0 (o.revenue_base -
                o.revenue_base / revenueSum (orderLines (o0 :: rest) oid) *
                  RefundAdjustment.refund_by_order refunds config (headStore (o0 :: rest)) oid) }) ∧
            (∀ o, o.external_order_id = oid →
              revenueSum (orderLines (o0 :: rest) oid) ≤ 0 → 0 ≤ o.revenue_base → f o = o) ∧
            (∀ o, 0 ≤ (f o).revenue_base) := by
        refine ⟨fun o =>
            { o with revenue_base := max 0 (o.revenue_base -
                (if 0 < revenueSum (orderLines (o0 :: rest) o.external_order_id) then
                  o.revenue_base / revenueSum (orderLines (o0 :: rest) o.external_order_id) *
                    RefundAdjustment.refund_by_order refunds config (headStore (o0 :: rest))
                      o.external_order_id
                 else 0)) }, ?_, fun o => rfl, ?_, ?_, fun o => le_max_left 0 _⟩
        · rw [RefundAdjustment.transform]
          simp only [href, if_neg (by exact href)]
          rfl
        · intro o hid hR
          simp only [hid, if_pos hR]
        · intro o hid hRle h0
          simp only [hid, if_neg (not_lt.mpr hRle), sub_zero]
          rw [max_eq_right h0]
      have hlinesid : ∀ o ∈ orderLines (o0 :: rest) oid, o.external_order_id = oid := by
        intro o ho
        exact of_decide_eq_true (List.mem_filter.mp ho).2
      have hlinesnn : ∀ o ∈ orderLines (o0 :: rest) oid, (0 : ℚ) ≤ o.revenue_base := by
        intro o ho
        exact hnn o (List.mem_filter.mp ho).1
      have hfilter : orderLines ((o0 :: rest).map f) oid =
          (orderLines (o0 :: rest) oid).map f := by
        rw [orderLines, orderLines, List.filter_map]
        congr 1
        apply List.filter_congr
        intro a _
        rw [Function.comp_apply, hfid a]
      rw [htr, hfilter]
      refine ⟨?_, ?_, ?_⟩
      · -- positive order revenue: proration
        intro hR
        constructor
        · rw [revenueSum, List.map_map]
          have hmm : ((orderLines (o0 :: rest) oid).map (CurOrder.revenue_base ∘ f)) =
              (orderLines (o0 :: rest) oid).map (fun o =>
                max 0 (o.revenue_base -
                  o.revenue_base / revenueSum (orderLines (o0 :: rest) oid) *
                    RefundAdjustment.refund_by_order refunds config
                      (headStore (o0 :: rest)) oid)) := by
            apply List.map_congr_left
            intro o ho
            rw [Function.comp_apply, hfpos o (hlinesid o ho) hR]
          rw [hmm]
          exact prorated_sum (orderLines (o0 :: rest) oid) _ _ hR hlinesnn rfl
        · rw [List.forall₂_map_right_iff, List.forall₂_same]
          intro o ho
          exact hfpos o (hlinesid o ho) hR
      · -- non-positive order revenue: lines unchanged
        intro hRle
        calc (orderLines (o0 :: rest) oid).map f
            = (orderLines (o0 :: rest) oid).map id :=
              List.map_congr_left (fun o ho =>
                hfneg o (hlinesid o ho) hRle (hlinesnn o ho))
          _ = orderLines (o0 :: rest) oid := List.map_id _
      · -- every post-refund revenue is nonnegative
        intro o2 ho2
        obtain ⟨o, _, rfl⟩ := List.mem_map.mp ho2
        exact hfnn o

/-- Witness for C2: an order with lines of revenue 10 and 30 and a 20 USD
refund: the post-refund revenues sum to `max 0 (40 - 20)`. -/
theorem refund_proration_witness :
    revenueSum (orderLines (RefundAdjustment.transform refundsW configW ordersW) "o1") =
      max 0 (revenueSum (orderLines ordersW "o1") -
        RefundAdjustment.refund_by_order refundsW configW (headStore ordersW) "o1") :=
  ((refund_proration refundsW configW ordersW "o1"
      (by intro o ho; fin_cases ho <;> norm_num)).1
    (by norm_num [revenueSum, orderLines, ordersW])).1


/-- Entries of a sorted list, read through `getD`, are monotone in the index. -/
theorem sorted_getD_mono {s : List ℚ} (hs : List.Sorted (fun a b => a ≤ b) s)
    {i j : Nat} (hij : i ≤ j) (hj : j < s.length) : s.getD i 0 ≤ s.getD j 0 := by
  have hi : i < s.length := lt_of_le_of_lt hij hj
  rw [List.getD_eq_getElem s 0 hi, List.getD_eq_getElem s 0 hj]
  rcases Nat.lt_or_ge i j with hlt | hge
  · have := List.pairwise_iff_get.mp hs ⟨i, hi⟩ ⟨j, hj⟩ hlt
    simpa using this
  · have : i = j := le_antisymm hij hge
    subst this
    exact le_refl _

/-- The linear interpolation `lo + t * (hi - lo)` between two consecutive
entries of a sorted list stays between them. -/
theorem interp_piece_bounds (s : List ℚ) (hs : List.Sorted (fun a b => a ≤ b) s)
    (hn : s ≠ []) (i : Nat) (hi : i ≤ s.length - 1) (t : ℚ) (ht0 : 0 ≤ t) (ht1 : t < 1) :
    s.getD i 0 ≤ s.getD i 0 + t * (s.getD (min (i + 1) (s.length - 1)) 0 - s.getD i 0) ∧
    s.getD i 0 + t * (s.getD (min (i + 1) (s.length - 1)) 0 - s.getD i 0) ≤
      s.getD (min (i + 1) (s.length - 1)) 0 := by
  have hlen : 0 < s.length := List.length_pos.mpr hn
  have hmin : i ≤ min (i + 1) (s.length - 1) := le_min (Nat.le_succ i) hi
  have hminlt : min (i + 1) (s.length - 1) < s.length := by
    have := Nat.min_le_right (i + 1) (s.length - 1)
    omega
  have hlh : s.getD i 0 ≤ s.getD (min (i + 1) (s.length - 1)) 0 :=
    sorted_getD_mono hs hmin hminlt
  constructor
  · exact le_add_of_nonneg_right (mul_nonneg ht0 (sub_nonneg.2 hlh))
  · have h1 : t * (s.getD (min (i + 1) (s.length - 1)) 0 - s.getD i 0) ≤
        1 * (s.getD (min (i + 1) (s.length - 1)) 0 - s.getD i 0) :=
      mul_le_mul_of_nonneg_right (le_of_lt ht1) (sub_nonneg.2 hlh)
    linarith

/-- The interpolated quantile value is monotone in the position. -/
theorem interpVal_mono (s : List ℚ) (hs : List.Sorted (fun a b => a ≤ b) s) (hn : s ≠ [])
    {a b : ℚ} (ha : 0 ≤ a) (hab : a ≤ b) (hb : b ≤ (s.length : ℚ) - 1) :
    s.getD (ratFloor a).toNat 0 + (a - ((ratFloor a : Int) : ℚ)) *
        (s.getD (min ((ratFloor a).toNat + 1) (s.length - 1)) 0 - s.getD (ratFloor a).toNat 0) ≤
      s.getD (ratFloor b).toNat 0 + (b - ((ratFloor b : Int) : ℚ)) *
        (s.getD (min ((ratFloor b).toNat + 1) (s.length - 1)) 0 -
          s.getD (ratFloor b).toNat 0) := by
  have hlen : 0 < s.length := List.length_pos.mpr hn
  have hb0 : 0 ≤ b := le_trans ha hab
  have hfa0 : 0 ≤ ⌊a⌋ := Int.floor_nonneg.2 ha
  have hfb0 : 0 ≤ ⌊b⌋ := Int.floor_nonneg.2 hb0
  -- position bounds as integers
  have hcast : ((s.length : ℚ) - 1) = (((s.length - 1 : Nat) : Int) : ℚ) := by
    push_cast [Nat.cast_sub hlen]
    ring
  have hfb_le : ⌊b⌋ ≤ ((s.length - 1 : Nat) : Int) := by
    have h1 : ⌊b⌋ ≤ ⌊(((s.length - 1 : Nat) : Int) : ℚ)⌋ :=
      Int.floor_le_floor (by rw [← hcast]; exact hb)
    simpa [Int.floor_intCast] using h1
  have hfa_le : ⌊a⌋ ≤ ((s.length - 1 : Nat) : Int) :=
    le_trans (Int.floor_le_floor hab) hfb_le
  have hia : (ratFloor a).toNat ≤ s.length - 1 := by
    rw [ratFloor_eq_floor]
    omega
  have hib : (ratFloor b).toNat ≤ s.length - 1 := by
    rw [ratFloor_eq_floor]
    omega
  -- fractional parts
  have hfraca0 : 0 ≤ a - ((ratFloor a : Int) : ℚ) := by
    rw [ratFloor_eq_floor]
    have := Int.floor_le a
    linarith
  have hfraca1 : a - ((ratFloor a : Int) : ℚ) < 1 := by
    rw [ratFloor_eq_floor]
    have := Int.lt_floor_add_one a
    push_cast at *
    linarith
  have hfracb0 : 0 ≤ b - ((ratFloor b : Int) : ℚ) := by
    rw [ratFloor_eq_floor]
    have := Int.floor_le b
    linarith
  have hfracb1 : b - ((ratFloor b : Int) : ℚ) < 1 := by
    rw [ratFloor_eq_floor]
    have := Int.lt_floor_add_one b
    push_cast at *
    linarith
  rcases Nat.lt_or_ge (ratFloor a).toNat (ratFloor b).toNat with hlt | hge
  · -- different segments: through the upper end of a's segment
    have h1 := (interp_piece_bounds s hs hn (ratFloor a).toNat hia _ hfraca0 hfraca1).2
    have h2 := (interp_piece_bounds s hs hn (ratFloor b).toNat hib _ hfracb0 hfracb1).1
    have hmid : s.getD (min ((ratFloor a).toNat + 1) (s.length - 1)) 0 ≤
        s.getD (ratFloor b).toNat 0 := by
      apply sorted_getD_mono hs
      · have := Nat.min_le_left ((ratFloor a).toNat + 1) (s.length - 1)
        omega
      · omega
    linarith
  · -- same segment (floors are equal)
    have heq : (ratFloor a).toNat = (ratFloor b).toNat := by
      have h3 : ratFloor a ≤ ratFloor b := by
        rw [ratFloor_eq_floor, ratFloor_eq_floor]
        exact Int.floor_le_floor hab
      omega
    have heqZ : ratFloor a = ratFloor b := by
      have h1 : 0 ≤ ratFloor a := by rw [ratFloor_eq_floor]; exact hfa0
      have h2 : 0 ≤ ratFloor b := by rw [ratFloor_eq_floor]; exact hfb0
      omega
    rw [heq, heqZ]
    have hmono : a - ((ratFloor b : Int) : ℚ) ≤ b - ((ratFloor b : Int) : ℚ) := by linarith
    have hlh : s.getD (ratFloor b).toNat 0 ≤
        s.getD (min ((ratFloor b).toNat + 1) (s.length - 1)) 0 := by
      apply sorted_getD_mono hs (le_min (Nat.le_succ _) hib)
      have := Nat.min_le_right ((ratFloor b).toNat + 1) (s.length - 1)
      omega
    have := mul_le_mul_of_nonneg_right hmono (sub_nonneg.2 hlh)
    linarith

/-- pandas' linear quantile is monotone in the requested probability. -/
theorem quantile_nondecreasing (xs : List ℚ) {p q : ℚ}
    (hp0 : 0 ≤ p) (hpq : p ≤ q) (hq1 : q ≤ 1) :
    quantile xs p ≤ quantile xs q := by
  by_cases hnil : xs.insertionSort (fun a b => a ≤ b) = []
  · simp only [quantile, hnil]
    norm_num
  · have hs : List.Sorted (fun a b => a ≤ b) (xs.insertionSort (fun a b => a ≤ b)) :=
      List.sorted_insertionSort _ xs
    have hlenQ : (1 : ℚ) ≤ ((xs.insertionSort (fun a b => a ≤ b)).length : ℚ) := by
      have : 0 < (xs.insertionSort (fun a b => a ≤ b)).length := List.length_pos.mpr hnil
      exact_mod_cast this
    have hn0 : ¬ (xs.insertionSort (fun a b => a ≤ b)).length = 0 := by
      have : 0 < (xs.insertionSort (fun a b => a ≤ b)).length := List.length_pos.mpr hnil
      omega
    simp only [quantile, if_neg hn0]
    apply interpVal_mono _ hs hnil
    · exact mul_nonneg hp0 (by linarith)
    · exact mul_le_mul_of_nonneg_right hpq (by linarith)
    · calc q * (((xs.insertionSort (fun a b => a ≤ b)).length : ℚ) - 1) ≤
          1 * (((xs.insertionSort (fun a b => a ≤ b)).length : ℚ) - 1) :=
            mul_le_mul_of_nonneg_right hq1 (by linarith)
        _ = ((xs.insertionSort (fun a b => a ≤ b)).length : ℚ) - 1 := one_mul _

/-- Q1 never exceeds Q3. -/
theorem quantile_q1_le_q3 (xs : List ℚ) : quantile xs (1/4) ≤ quantile xs (3/4) :=
  quantile_nondecreasing xs (by norm_num) (by norm_num) (by norm_num)

/-- A column pass with strategy `"cap"` leaves any projection untouched that
ignores the written column and the outlier flag. -/
theorem processColumn_proj_cap {β : Type} (self : OutlierDetector)
    (hstrat : self.strategy = "cap")
    (get : SeriesRow → ℚ) (set : SeriesRow → ℚ → SeriesRow) (proj : SeriesRow → β)
    (hcap : ∀ r v, proj { set r v with is_outlier_adjusted := true } = proj r)
    (series : List SeriesRow) :
    (self.processColumn get set series).map proj = series.map proj := by
  rw [OutlierDetector.processColumn]
  by_cases hiqr : quantile (series.map get) (3/4) - quantile (series.map get) (1/4) = 0
  · rw [if_pos hiqr]
  · rw [if_neg hiqr, if_pos hstrat, List.map_map]
    apply List.map_congr_left
    intro r _
    rw [Function.comp_apply]
    by_cases hadj : get r < quantile (series.map get) (1/4) -
        self.iqr_multiplier * (quantile (series.map get) (3/4) - quantile (series.map get) (1/4)) ∨
        quantile (series.map get) (3/4) +
          self.iqr_multiplier * (quantile (series.map get) (3/4) -
            quantile (series.map get) (1/4)) < get r
    · rw [if_pos hadj, hcap]
    · rw [if_neg hadj]

/-- A column pass with a non-`"cap"` strategy only writes the outlier flag. -/
theorem processColumn_proj_flag {β : Type} (self : OutlierDetector)
    (hstrat : ¬ self.strategy = "cap")
    (get : SeriesRow → ℚ) (set : SeriesRow → ℚ → SeriesRow) (proj : SeriesRow → β)
    (hflag : ∀ r b, proj { r with is_outlier_adjusted := b } = proj r)
    (series : List SeriesRow) :
    (self.processColumn get set series).map proj = series.map proj := by
  rw [OutlierDetector.processColumn]
  by_cases hiqr : quantile (series.map get) (3/4) - quantile (series.map get) (1/4) = 0
  · rw [if_pos hiqr]
  · rw [if_neg hiqr, if_neg hstrat, List.map_map]
    apply List.map_congr_left
    intro r _
    rw [Function.comp_apply, hflag]

/-- A `"cap"` column pass keeps the processed column within the IQR bounds of
its input whenever its IQR is nonzero. -/
theorem processColumn_cap_bounds (k : ℚ) (hk : 0 ≤ k)
    (get : SeriesRow → ℚ) (set : SeriesRow → ℚ → SeriesRow)
    (hgs : ∀ r v, get { set r v with is_outlier_adjusted := true } = v)
    (series : List SeriesRow)
    (hiqr : ¬ quantile (series.map get) (3/4) - quantile (series.map get) (1/4) = 0) :
    ∀ r' ∈ (OutlierDetector.mk "cap" k).processColumn get set series,
      quantile (series.map get) (1/4) -
          k * (quantile (series.map get) (3/4) - quantile (series.map get) (1/4)) ≤ get r' ∧
      get r' ≤ quantile (series.map get) (3/4) +
          k * (quantile (series.map get) (3/4) - quantile (series.map get) (1/4)) := by
  intro r' hr'
  have hq13 : quantile (series.map get) (1/4) ≤ quantile (series.map get) (3/4) :=
    quantile_q1_le_q3 (series.map get)
  have hlowhigh : quantile (series.map get) (1/4) -
      k * (quantile (series.map get) (3/4) - quantile (series.map get) (1/4)) ≤
      quantile (series.map get) (3/4) +
        k * (quantile (series.map get) (3/4) - quantile (series.map get) (1/4)) := by
    have := mul_nonneg hk (sub_nonneg.2 hq13)
    linarith
  rw [OutlierDetector.processColumn, if_neg hiqr, if_pos rfl] at hr'
  obtain ⟨r, _, rfl⟩ := List.mem_map.mp hr'
  by_cases hadj : get r < quantile (series.map get) (1/4) -
      k * (quantile (series.map get) (3/4) - quantile (series.map get) (1/4)) ∨
      quantile (series.map get) (3/4) +
        k * (quantile (series.map get) (3/4) - quantile (series.map get) (1/4)) < get r
  · rw [if_pos hadj, hgs]
    constructor
    · exact le_min (le_max_right _ _) hlowhigh
    · exact min_le_right _ _
  · rw [if_neg hadj]
    push_neg at hadj
    exact ⟨hadj.1, hadj.2⟩
    
/-- C6: with strategy `"cap"` (IQR multiplier 1.5) every output quantity and
revenue lies within `[Q1 - 1.5*IQR, Q3 + 1.5*IQR]` of its column computed
over the input, whenever that column's IQR is nonzero (zero-IQR columns are
skipped); with strategy `"flag"` no field except `is_outlier_adjusted` is
modified; with strategy `"none"` the stage is the identity. -/
theorem outlier_strategies :
    (∀ (series : List SeriesRow) (r' : SeriesRow),
      r' ∈ (OutlierDetector.mk "cap" (3/2)).transform series →
      (iqrOf (series.map (fun r => r.quantity)) ≠ 0 →
        capLow (series.map (fun r => r.quantity)) ≤ r'.quantity ∧
        r'.quantity ≤ capHigh (series.map (fun r => r.quantity))) ∧
      (iqrOf (series.map (fun r => r.revenue)) ≠ 0 →
        capLow (series.map (fun r => r.revenue)) ≤ r'.revenue ∧
        r'.revenue ≤ capHigh (series.map (fun r => r.revenue)))) ∧
    (∀ series : List SeriesRow,
      ((OutlierDetector.mk "flag" (3/2)).transform series).map nonFlagFields =
        series.map nonFlagFields) ∧
    (∀ series : List SeriesRow, (OutlierDetector.mk "none" (3/2)).transform series = series) := by
  refine ⟨?_, ?_, ?_⟩
  · -- strategy "cap": no value escapes the input-column IQR bounds
    intro series r' hmem
    by_cases hser : series = []
    · rw [OutlierDetector.transform, if_pos (Or.inl hser), hser] at hmem
      cases hmem
    · have hcond : ¬ (series = [] ∨ (OutlierDetector.mk "cap" (3/2)).strategy = "none") := by
        simp [hser]
      rw [OutlierDetector.transform, if_neg hcond] at hmem
      constructor
      · -- quantity bounds
        intro hiqrQ
        have hiqrQ2 : ¬ quantile (series.map (fun r => r.quantity)) (3/4) -
            quantile (series.map (fun r => r.quantity)) (1/4) = 0 := by
          simpa [iqrOf] using hiqrQ
        have hq : r'.quantity ∈
            (((OutlierDetector.mk "cap" (3/2)).processColumn (fun r => r.revenue)
                (fun r v => { r with revenue := v })
                ((OutlierDetector.mk "cap" (3/2)).processColumn (fun r => r.quantity)
                  (fun r v => { r with quantity := v }) series)).map
              (fun r => r.quantity)) :=
          List.mem_map_of_mem _ hmem
        rw [processColumn_proj_cap _ rfl _ _ _ (fun r v => rfl)] at hq
        obtain ⟨x, hx, hxq⟩ := List.mem_map.mp hq
        have hb := processColumn_cap_bounds (3/2) (by norm_num) (fun r => r.quantity)
          (fun r v => { r with quantity := v }) (fun r v => rfl) series hiqrQ2 x hx
        simpa [capLow, capHigh, iqrOf, hxq] using hb
      · -- revenue bounds (computed over the input: the quantity pass leaves
        -- the revenue column untouched)
        intro hiqrR
        have hrevmap : (((OutlierDetector.mk "cap" (3/2)).processColumn (fun r => r.quantity)
              (fun r v => { r with quantity := v }) series).map (fun r => r.revenue)) =
            series.map (fun r => r.revenue) :=
          processColumn_proj_cap _ rfl _ _ _ (fun r v => rfl) series
        have hiqrR2 : ¬ quantile (((OutlierDetector.mk "cap" (3/2)).processColumn
              (fun r => r.quantity) (fun r v => { r with quantity := v }) series).map
                (fun r => r.revenue)) (3/4) -
            quantile (((OutlierDetector.mk "cap" (3/2)).processColumn (fun r => r.quantity)
              (fun r v => { r with quantity := v }) series).map (fun r => r.revenue)) (1/4) = 0 := by
          rw [hrevmap]
          simpa [iqrOf] using hiqrR
        have hb := processColumn_cap_bounds (3/2) (by norm_num) (fun r => r.revenue)
          (fun r v => { r with revenue := v }) (fun r v => rfl) _ hiqrR2 r' hmem
        rw [hrevmap] at hb
        simpa [capLow, capHigh, iqrOf] using hb
  · -- strategy "flag": everything except the flag is untouched
    intro series
    by_cases hser : series = []
    · rw [OutlierDetector.transform, if_pos (Or.inl hser)]
    · have hcond : ¬ (series = [] ∨ (OutlierDetector.mk "flag" (3/2)).strategy = "none") := by
        simp [hser]
      rw [OutlierDetector.transform, if_neg hcond]
      rw [processColumn_proj_flag _ (by simp) (fun r => r.revenue)
        (fun r v => { r with revenue := v }) nonFlagFields (fun r b => rfl)]
      rw [processColumn_proj_flag _ (by simp) (fun r => r.quantity)
        (fun r v => { r with quantity := v }) nonFlagFields (fun r b => rfl)]
  · -- strategy "none": identity
    intro series
    rw [OutlierDetector.transform, if_pos (Or.inr rfl)]

/-- Witness for C6. -/
theorem outlier_strategies_witness :
    capLow (seriesW.map (fun r => r.quantity)) ≤
        ({ store_id := "s1", sku_id := "SKU-A", category_id := none, series_date := 0
           quantity := 0, revenue := 0, is_interpolated := false,
           is_outlier_adjusted := false } : SeriesRow).quantity ∧
      ({ store_id := "s1", sku_id := "SKU-A", category_id := none, series_date := 0
         quantity := 0, revenue := 0, is_interpolated := false,
         is_outlier_adjusted := false } : SeriesRow).quantity ≤
        capHigh (seriesW.map (fun r => r.quantity)) :=
  (outlier_strategies.1 seriesW _
      (by
        have : (OutlierDetector.mk "cap" (3/2)).transform seriesW = seriesW := by
          rw [OutlierDetector.transform]
          norm_num [seriesW, OutlierDetector.processColumn, quantile, ratFloor_eq_floor,
            List.insertionSort, List.orderedInsert]
        rw [this]
        simp [seriesW])).1
    (by
      norm_num [seriesW, iqrOf, quantile, ratFloor_eq_floor, List.insertionSort,
        List.orderedInsert])

/-! Helper facts about `foldl min` / `foldl max`, the embedded `Series.min()`
and `Series.max()`. -/

theorem foldl_min_le_init (l : List Int) (a : Int) : l.foldl min a ≤ a := by
  induction l generalizing a with
  | nil => exact le_refl a
  | cons x xs ih => exact le_trans (ih (min a x)) (min_le_left a x)

theorem foldl_min_le_mem {l : List Int} {x : Int} (hx : x ∈ l) (a : Int) :
    l.foldl min a ≤ x := by
  induction l generalizing a with
  | nil => cases hx
  | cons y ys ih =>
    rcases List.mem_cons.mp hx with rfl | hmem
    · exact le_trans (foldl_min_le_init ys (min a x)) (min_le_right a x)
    · exact ih hmem (min a y)

theorem foldl_min_mem_or (l : List Int) (a : Int) :
    l.foldl min a = a ∨ l.foldl min a ∈ l := by
  induction l generalizing a with
  | nil => exact Or.inl rfl
  | cons x xs ih =>
    rcases ih (min a x) with h | h
    · rcases min_cases a x with ⟨hmin, _⟩ | ⟨hmin, _⟩
      · exact Or.inl (by rw [List.foldl_cons, h, hmin])
      · exact Or.inr (by rw [List.foldl_cons, h, hmin]; exact List.mem_cons_self x xs)
    · exact Or.inr (List.mem_cons_of_mem x h)

theorem init_le_foldl_max (l : List Int) (a : Int) : a ≤ l.foldl max a := by
  induction l generalizing a with
  | nil => exact le_refl a
  | cons x xs ih => exact le_trans (le_max_left a x) (ih (max a x))

theorem mem_le_foldl_max {l : List Int} {x : Int} (hx : x ∈ l) (a : Int) :
    x ≤ l.foldl max a := by
  induction l generalizing a with
  | nil => cases hx
  | cons y ys ih =>
    rcases List.mem_cons.mp hx with rfl | hmem
    · exact le_trans (le_max_right a x) (init_le_foldl_max ys (max a x))
    · exact ih hmem (max a y)

theorem foldl_max_mem_or (l : List Int) (a : Int) :
    l.foldl max a = a ∨ l.foldl max a ∈ l := by
  induction l generalizing a with
  | nil => exact Or.inl rfl
  | cons x xs ih =>
    rcases ih (max a x) with h | h
    · rcases max_cases a x with ⟨hmax, _⟩ | ⟨hmax, _⟩
      · exact Or.inl (by rw [List.foldl_cons, h, hmax])
      · exact Or.inr (by rw [List.foldl_cons, h, hmax]; exact List.mem_cons_self x xs)
    · exact Or.inr (List.mem_cons_of_mem x h)

/-! The contiguous date range. -/

theorem mem_dateRange {lo hi d : Int} : d ∈ dateRange lo hi ↔ lo ≤ d ∧ d ≤ hi := by
  rw [dateRange]
  constructor
  · intro h
    obtain ⟨i, hi', rfl⟩ := List.mem_map.mp h
    have := List.mem_range.mp hi'
    omega
  · intro ⟨h1, h2⟩
    apply List.mem_map.mpr
    refine ⟨(d - lo).toNat, List.mem_range.mpr (by omega), by omega⟩

theorem nodup_dateRange (lo hi : Int) : (dateRange lo hi).Nodup := by
  rw [dateRange]
  apply List.Nodup.map
  · intro a b hab
    have hab2 : lo + (a : Int) = lo + (b : Int) := hab
    omega
  · exact List.nodup_range _

/-! `find?` through a `filter`, and congruence of `find?` predicates. -/

theorem find?_filter_comm {α : Type} (l : List α) (p q : α → Bool) :
    (l.filter q).find? p = l.find? (fun a => q a && p a) := by
  induction l with
  | nil => rfl
  | cons x xs ih =>
    by_cases hq : q x
    · rw [List.filter_cons_of_pos hq]
      by_cases hp : p x
      · rw [List.find?_cons_of_pos _ hp, List.find?_cons_of_pos _ (by rw [hq, hp]; rfl)]
      · rw [List.find?_cons_of_neg _ (by simpa using hp),
          List.find?_cons_of_neg _ (by simp [hq, hp]), ih]
    · rw [List.filter_cons_of_neg (by simpa using hq),
        List.find?_cons_of_neg _ (by simp [hq]), ih]

theorem find?_congr_pred {α : Type} (l : List α) (p q : α → Bool)
    (h : ∀ a, p a = q a) : l.find? p = l.find? q := by
  induction l with
  | nil => rfl
  | cons x xs ih =>
    by_cases hp : p x
    · rw [List.find?_cons_of_pos _ hp, List.find?_cons_of_pos _ (by rw [← h]; exact hp)]
    · rw [List.find?_cons_of_neg _ (by simpa using hp),
        List.find?_cons_of_neg _ (by rw [← h]; simpa using hp), ih]

/-! Field values of the row emitted for one group and one day. -/

theorem interpRow_key (sub : List SeriesRow) (sid sku : String) (cat : Option String) (d : Int) :
    (interpRow sub sid sku cat d).store_id = sid ∧
    (interpRow sub sid sku cat d).sku_id = sku ∧
    (interpRow sub sid sku cat d).series_date = d := by
  rw [interpRow]
  cases sub.find? (fun r => r.series_date = d) with
  | none => exact ⟨rfl, rfl, rfl⟩
  | some r0 => exact ⟨rfl, rfl, rfl⟩

theorem interpRow_of_find?_some {sub : List SeriesRow} {sid sku : String}
    {cat : Option String} {d : Int} {r0 : SeriesRow}
    (h : sub.find? (fun r => r.series_date = d) = some r0) :
    (interpRow sub sid sku cat d).quantity = r0.quantity ∧
    (interpRow sub sid sku cat d).revenue = r0.revenue ∧
    (interpRow sub sid sku cat d).is_interpolated = r0.is_interpolated ∧
    (interpRow sub sid sku cat d).is_outlier_adjusted = r0.is_outlier_adjusted := by
  rw [interpRow, h]
  exact ⟨rfl, rfl, rfl, rfl⟩

theorem interpRow_of_find?_none {sub : List SeriesRow} {sid sku : String}
    {cat : Option String} {d : Int}
    (h : sub.find? (fun r => r.series_date = d) = none) :
    (interpRow sub sid sku cat d).quantity = 0 ∧
    (interpRow sub sid sku cat d).revenue = 0 ∧
    (interpRow sub sid sku cat d).is_interpolated = true := by
  rw [interpRow, h]
  exact ⟨rfl, rfl, rfl⟩

/-- C8 (amended): every input row that is the first one bearing its
`(store_id, sku_id, series_date)` key reappears in the interpolation output
with quantity, revenue and both flags unchanged. -/
theorem interpolation_first_row_preserved :
    ∀ (m : String) (series : List SeriesRow) (r : SeriesRow),
      series.find? (fun x => x.store_id = r.store_id ∧ x.sku_id = r.sku_id ∧
          x.series_date = r.series_date) = some r →
      ∃ r' ∈ (MissingDataInterpolator.mk m).transform series,
        r'.store_id = r.store_id ∧ r'.sku_id = r.sku_id ∧
        r'.series_date = r.series_date ∧ r'.quantity = r.quantity ∧
        r'.revenue = r.revenue ∧ r'.is_interpolated = r.is_interpolated ∧
        r'.is_outlier_adjusted = r.is_outlier_adjusted := by
  intro m series r hfind
  have hr : r ∈ series := List.mem_of_find?_eq_some hfind
  match series, hfind, hr with
  | s0 :: rest, hfind, hr =>
  rw [MissingDataInterpolator.transform]
  -- the group key of r is among the deduplicated keys
  have hk : (r.store_id, r.sku_id) ∈
      ((s0 :: rest).map (fun x => (x.store_id, x.sku_id))).dedup :=
    List.mem_dedup.mpr (List.mem_map_of_mem _ hr)
  -- r's date lies in the global range
  have hdmem : r.series_date ∈ (s0 :: rest).map (fun x => x.series_date) :=
    List.mem_map_of_mem _ hr
  have hd : r.series_date ∈ dateRange
      (((s0 :: rest).map (fun x => x.series_date)).foldl min s0.series_date)
      (((s0 :: rest).map (fun x => x.series_date)).foldl max s0.series_date) :=
    mem_dateRange.mpr ⟨foldl_min_le_mem hdmem _, mem_le_foldl_max hdmem _⟩
  -- the first row of r's group on r's date is r itself
  have hsubfind :
      ((s0 :: rest).filter (fun x => x.store_id = r.store_id ∧ x.sku_id = r.sku_id)).find?
        (fun x => x.series_date = r.series_date) = some r := by
    rw [find?_filter_comm]
    rw [find?_congr_pred _ _ (fun x => decide (x.store_id = r.store_id ∧ x.sku_id = r.sku_id ∧
        x.series_date = r.series_date)) (fun a => by simp [Bool.and_assoc])]
    exact hfind
  refine ⟨interpRow
      ((s0 :: rest).filter (fun x => x.store_id = r.store_id ∧ x.sku_id = r.sku_id))
      r.store_id r.sku_id
      ((((s0 :: rest).filter (fun x => x.store_id = r.store_id ∧ x.sku_id = r.sku_id)).find?
        (fun x => x.category_id.isSome)).bind (fun x => x.category_id))
      r.series_date, ?_, ?_⟩
  · apply List.mem_flatMap.mpr
    exact ⟨(r.store_id, r.sku_id), hk, List.mem_map_of_mem _ hd⟩
  · obtain ⟨h1, h2, h3⟩ := interpRow_key
      ((s0 :: rest).filter (fun x => x.store_id = r.store_id ∧ x.sku_id = r.sku_id))
      r.store_id r.sku_id _ r.series_date
    obtain ⟨h4, h5, h6, h7⟩ := @interpRow_of_find?_some
      ((s0 :: rest).filter (fun x => x.store_id = r.store_id ∧ x.sku_id = r.sku_id))
      r.store_id r.sku_id
      ((((s0 :: rest).filter
          (fun x => x.store_id = r.store_id ∧ x.sku_id = r.sku_id)).find?
        (fun x => x.category_id.isSome)).bind (fun x => x.category_id))
      r.series_date r hsubfind
    exact ⟨h1, h2, h3, h4, h5, h6, h7⟩

/-- Counterexample for C8 as stated: after the rollup two rows can share a
(store, SKU, date) key while differing in category; the interpolation stage
keeps only the first of them, so the second input row (quantity 2) does not
appear in the output with its values unchanged. -/
theorem interpolation_duplicate_key_counterexample :
    ({ store_id := "s1", sku_id := "SKU-A", category_id := some "catB", series_date := 0
       quantity := 2, revenue := 2, is_interpolated := false,
       is_outlier_adjusted := false } : SeriesRow) ∈ interpDupW ∧
    ¬ ∃ r' ∈ (MissingDataInterpolator.mk "zero").transform interpDupW,
        r'.store_id = "s1" ∧ r'.sku_id = "SKU-A" ∧ r'.series_date = 0 ∧
        r'.quantity = 2 := by
  decide

/-- Witness for C8 (amended): a singleton series passes through unchanged in
quantity, revenue and flags. -/
theorem interpolation_first_row_preserved_witness :
    ∃ r' ∈ (MissingDataInterpolator.mk "zero").transform
        [({ store_id := "s1", sku_id := "SKU-A", category_id := some "catA", series_date := 0
            quantity := 1, revenue := 1, is_interpolated := false,
            is_outlier_adjusted := false } : SeriesRow)],
      r'.store_id = "s1" ∧ r'.sku_id = "SKU-A" ∧ r'.series_date = 0 ∧
      r'.quantity = 1 ∧ r'.revenue = 1 ∧ r'.is_interpolated = false ∧
      r'.is_outlier_adjusted = false :=
  interpolation_first_row_preserved "zero"
    [({ store_id := "s1", sku_id := "SKU-A", category_id := some "catA", series_date := 0
        quantity := 1, revenue := 1, is_interpolated := false,
        is_outlier_adjusted := false } : SeriesRow)]
    ({ store_id := "s1", sku_id := "SKU-A", category_id := some "catA", series_date := 0
       quantity := 1, revenue := 1, is_interpolated := false,
       is_outlier_adjusted := false } : SeriesRow) (by decide)

/-- The refund stage only rewrites `revenue_base`: any projection that
ignores that column passes through it unchanged. -/
theorem refund_preserves_proj {β : Type} (proj : CurOrder → β)
    (hproj : ∀ (o : CurOrder) (v : ℚ), proj { o with revenue_base := v } = proj o)
    (refunds : List RawRefund) (config : PipelineConfig) (l : List CurOrder) :
    (RefundAdjustment.transform refunds config l).map proj = l.map proj := by
  match l with
  | [] => rfl
  | o0 :: rest =>
    by_cases href : refunds.filter (fun r => r.store_id = headStore (o0 :: rest)) = []
    · have htr : RefundAdjustment.transform refunds config (o0 :: rest) = o0 :: rest := by
        rw [RefundAdjustment.transform]
        simp only [href]
        simp
      rw [htr]
    · have htr : RefundAdjustment.transform refunds config (o0 :: rest) =
          (o0 :: rest).map (fun o =>
            { o with revenue_base := max 0 (o.revenue_base -
                (if 0 < revenueSum (orderLines (o0 :: rest) o.external_order_id) then
                  o.revenue_base / revenueSum (orderLines (o0 :: rest) o.external_order_id) *
                    RefundAdjustment.refund_by_order refunds config (headStore (o0 :: rest))
                      o.external_order_id
                 else 0)) }) := by
        rw [RefundAdjustment.transform]
        simp only [href, if_neg (by exact href)]
        rfl
      rw [htr, List.map_map]
      apply List.map_congr_left
      intro o _
      exact hproj o _

/-- Through timezone, currency, refund and dedup, each order line keeps its
store, resolves its canonical SKU from `sku_raw`, and keeps its UTC day as
`series_date`. -/
theorem pre_rollup_key (mappings : List SKUMapping) (store_id : String)
    (refunds : List RawRefund) (config : PipelineConfig) (tzname : String)
    (orders : List RawOrder) :
    (SKUDeduplicator.transform mappings store_id
        (RefundAdjustment.transform refunds config
          (CurrencyNormalizer.transform config
            ((TimezoneNormalizer.mk tzname).transform orders)))).map
      (fun o => (o.store_id, o.canonical_sku, o.series_date)) =
    orders.map (fun o =>
      (o.store_id, canonicalSku mappings store_id o, o.order_date_utc.utcDay)) := by
  rw [SKUDeduplicator.transform, List.map_map]
  show (RefundAdjustment.transform refunds config
      (CurrencyNormalizer.transform config
        ((TimezoneNormalizer.mk tzname).transform orders))).map
    (fun o => (o.store_id,
      ((SKUDeduplicator.load_mapping mappings store_id).lookup o.sku_raw).getD o.sku_raw,
      o.series_date)) = _
  rw [refund_preserves_proj
    (fun o => (o.store_id,
      ((SKUDeduplicator.load_mapping mappings store_id).lookup o.sku_raw).getD o.sku_raw,
      o.series_date)) (fun o v => rfl)]
  rw [CurrencyNormalizer.transform, List.map_map, TimezoneNormalizer.transform, List.map_map]
  rfl

/-- The rollup of a non-empty frame is non-empty. -/
theorem rollup_ne_nil {orders : List DedupOrder} (h : orders ≠ []) :
    VariantRollup.transform orders ≠ [] := by
  match orders with
  | o0 :: rest =>
    rw [VariantRollup.transform]
    intro hcon
    rw [List.map_eq_nil_iff] at hcon
    have : rollKey o0 ∈ ((o0 :: rest).map rollKey).dedup :=
      List.mem_dedup.mpr (List.mem_map_of_mem _ (List.mem_cons_self _ _))
    rw [hcon] at this
    cases this

/-- Every rollup row's (store, SKU, date) comes from some input line. -/
theorem rollup_mem_key {orders : List DedupOrder} {r : SeriesRow}
    (hr : r ∈ VariantRollup.transform orders) :
    ∃ o ∈ orders, o.store_id = r.store_id ∧ o.canonical_sku = r.sku_id ∧
      o.series_date = r.series_date := by
  match orders with
  | [] => rw [VariantRollup.transform] at hr; cases hr
  | o0 :: rest =>
    rw [VariantRollup.transform] at hr
    obtain ⟨k, hk, rfl⟩ := List.mem_map.mp hr
    obtain ⟨o, ho, hko⟩ := List.mem_map.mp (List.mem_dedup.mp hk)
    subst hko
    exact ⟨o, ho, rfl, rfl, rfl⟩

/-- Every input line's (store, canonical SKU, date) appears in the rollup. -/
theorem rollup_key_mem {orders : List DedupOrder} {o : DedupOrder} (ho : o ∈ orders) :
    ∃ r ∈ VariantRollup.transform orders, r.store_id = o.store_id ∧
      r.sku_id = o.canonical_sku ∧ r.series_date = o.series_date := by
  match orders with
  | o0 :: rest =>
    rw [VariantRollup.transform]
    have hk : rollKey o ∈ ((o0 :: rest).map rollKey).dedup :=
      List.mem_dedup.mpr (List.mem_map_of_mem _ ho)
    exact ⟨_, List.mem_map_of_mem _ hk, rfl, rfl, rfl⟩

/-- The outlier stage, whatever its strategy, never touches store, SKU or
date. -/
theorem outlier_key3 (self : OutlierDetector) (series : List SeriesRow) :
    (self.transform series).map seriesKey3 = series.map seriesKey3 := by
  rw [OutlierDetector.transform]
  by_cases hid : series = [] ∨ self.strategy = "none"
  · rw [if_pos hid]
  · rw [if_neg hid]
    by_cases hcap : self.strategy = "cap"
    · rw [processColumn_proj_cap self hcap (fun r => r.revenue)
        (fun r v => { r with revenue := v }) seriesKey3 (fun r v => rfl)]
      rw [processColumn_proj_cap self hcap (fun r => r.quantity)
        (fun r v => { r with quantity := v }) seriesKey3 (fun r v => rfl)]
    · rw [processColumn_proj_flag self hcap (fun r => r.revenue)
        (fun r v => { r with revenue := v }) seriesKey3 (fun r b => rfl)]
      rw [processColumn_proj_flag self hcap (fun r => r.quantity)
        (fun r v => { r with quantity := v }) seriesKey3 (fun r b => rfl)]

/-- Members transfer along lists with equal projection images. -/
theorem mem_of_map_eq2 {α β γ : Type} {f : α → γ} {g : β → γ} {l1 : List α} {l2 : List β}
    (h : l1.map f = l2.map g) {x : α} (hx : x ∈ l1) : ∃ y ∈ l2, g y = f x := by
  have : f x ∈ l2.map g := h ▸ List.mem_map_of_mem f hx
  obtain ⟨y, hy, hyx⟩ := List.mem_map.mp this
  exact ⟨y, hy, hyx⟩

/-- Two non-empty day lists with the same members have the same minimum. -/
theorem listMinD_eq_of_mem_iff {l1 l2 : List Int} (h : ∀ x, x ∈ l1 ↔ x ∈ l2)
    (h1 : l1 ≠ []) (h2 : l2 ≠ []) : listMinD l1 = listMinD l2 := by
  have hmem : ∀ (l : List Int), l ≠ [] → listMinD l ∈ l := by
    intro l hl
    match l with
    | a :: t =>
      rcases foldl_min_mem_or (a :: t) ((a :: t).headD 0) with heq | hmem
      · rw [listMinD, heq]
        exact List.mem_cons_self a t
      · exact hmem
  have hle : ∀ (l : List Int) (x : Int), x ∈ l → listMinD l ≤ x := by
    intro l x hx
    exact foldl_min_le_mem hx _
  exact le_antisymm (hle l1 _ ((h _).mpr (hmem l2 h2))) (hle l2 _ ((h _).mp (hmem l1 h1)))

/-- Two non-empty day lists with the same members have the same maximum. -/
theorem listMaxD_eq_of_mem_iff {l1 l2 : List Int} (h : ∀ x, x ∈ l1 ↔ x ∈ l2)
    (h1 : l1 ≠ []) (h2 : l2 ≠ []) : listMaxD l1 = listMaxD l2 := by
  have hmem : ∀ (l : List Int), l ≠ [] → listMaxD l ∈ l := by
    intro l hl
    match l with
    | a :: t =>
      rcases foldl_max_mem_or (a :: t) ((a :: t).headD 0) with heq | hmem
      · rw [listMaxD, heq]
        exact List.mem_cons_self a t
      · exact hmem
  have hle : ∀ (l : List Int) (x : Int), x ∈ l → x ≤ listMaxD l := by
    intro l x hx
    exact mem_le_foldl_max hx _
  exact le_antisymm ((h _).mp (hmem l1 h1) |> fun hx => hle l2 _ hx)
    ((h _).mpr (hmem l2 h2) |> fun hx => hle l1 _ hx)

/-- The interpolation output, written through the named group/range
helpers. -/
theorem interp_transform_eq (m : String) (s0 : SeriesRow) (rest : List SeriesRow) :
    (MissingDataInterpolator.mk m).transform (s0 :: rest) =
      (interpKeys (s0 :: rest)).flatMap (fun k =>
        (dateRange (listMinD ((s0 :: rest).map (fun r => r.series_date)))
            (listMaxD ((s0 :: rest).map (fun r => r.series_date)))).map
          (fun d => interpRow (interpSub (s0 :: rest) k) k.1 k.2
            (interpCat (s0 :: rest) k) d)) := rfl

/-- The key triples of the interpolation output, in closed form. -/
theorem interp_map_key3 (m : String) (s0 : SeriesRow) (rest : List SeriesRow) :
    ((MissingDataInterpolator.mk m).transform (s0 :: rest)).map seriesKey3 =
      (interpKeys (s0 :: rest)).flatMap (fun k =>
        (dateRange (listMinD ((s0 :: rest).map (fun r => r.series_date)))
            (listMaxD ((s0 :: rest).map (fun r => r.series_date)))).map
          (fun d => (k.1, k.2, d))) := by
  rw [interp_transform_eq, List.map_flatMap]
  rw [List.flatMap_def, List.flatMap_def]
  congr 1
  apply List.map_congr_left
  intro k _
  rw [List.map_map]
  apply List.map_congr_left
  intro d _
  obtain ⟨h1, h2, h3⟩ := interpRow_key (interpSub (s0 :: rest) k) k.1 k.2
    (interpCat (s0 :: rest) k) d
  rw [Function.comp_apply, seriesKey3, h1, h2, h3]

/-- One row per (store, SKU, day): the key triples of the interpolation
output are pairwise distinct. -/
theorem interp_nodup (m : String) (s0 : SeriesRow) (rest : List SeriesRow) :
    (((MissingDataInterpolator.mk m).transform (s0 :: rest)).map seriesKey3).Nodup := by
  rw [interp_map_key3]
  rw [List.nodup_flatMap]
  constructor
  · intro k _
    apply List.Nodup.map
    · intro d1 d2 h
      injection h with _ h23
      injection h23
    · exact nodup_dateRange _ _
  · have hnd : (interpKeys (s0 :: rest)).Nodup := List.nodup_dedup _
    refine List.Pairwise.imp ?_ hnd
    intro k1 k2 hne
    intro a ha1 ha2
    obtain ⟨d1, _, rfl⟩ := List.mem_map.mp ha1
    obtain ⟨d2, _, heq⟩ := List.mem_map.mp ha2
    apply hne
    injection heq with h1 h23
    injection h23 with h2 h3
    exact Prod.ext h1.symm h2.symm

/-- Membership in the interpolation output, in closed form. -/
theorem interp_mem_iff (m : String) (s0 : SeriesRow) (rest : List SeriesRow)
    (r' : SeriesRow) :
    r' ∈ (MissingDataInterpolator.mk m).transform (s0 :: rest) ↔
      ∃ k ∈ interpKeys (s0 :: rest),
        ∃ d ∈ dateRange (listMinD ((s0 :: rest).map (fun r => r.series_date)))
          (listMaxD ((s0 :: rest).map (fun r => r.series_date))),
          r' = interpRow (interpSub (s0 :: rest) k) k.1 k.2 (interpCat (s0 :: rest) k) d := by
  rw [interp_transform_eq, List.mem_flatMap]
  constructor
  · intro ⟨k, hk, hr⟩
    obtain ⟨d, hd, heq⟩ := List.mem_map.mp hr
    exact ⟨k, hk, d, hd, heq.symm⟩
  · intro ⟨k, hk, d, hd, heq⟩
    rw [heq]
    exact ⟨k, hk, List.mem_map_of_mem _ hd⟩

/-- The range of the interpolation output is never empty: the seed date lies
between the minimum and the maximum. -/
theorem interp_min_le_max (s0 : SeriesRow) (rest : List SeriesRow) :
    listMinD ((s0 :: rest).map (fun r => r.series_date)) ≤
      listMaxD ((s0 :: rest).map (fun r => r.series_date)) :=
  le_trans (foldl_min_le_init _ _) (init_le_foldl_max _ _)

/-- A (store, SKU) pair appears in the interpolation output exactly when it
is one of the group keys. -/
theorem interp_key_present_iff (m : String) (s0 : SeriesRow) (rest : List SeriesRow)
    (sid sku : String) :
    (∃ r' ∈ (MissingDataInterpolator.mk m).transform (s0 :: rest),
        r'.store_id = sid ∧ r'.sku_id = sku) ↔ (sid, sku) ∈ interpKeys (s0 :: rest) := by
  constructor
  · intro ⟨r', hr', hsid, hsku⟩
    obtain ⟨k, hk, d, hd, rfl⟩ := (interp_mem_iff m s0 rest _).mp hr'
    obtain ⟨h1, h2, _⟩ := interpRow_key (interpSub (s0 :: rest) k) k.1 k.2
      (interpCat (s0 :: rest) k) d
    rw [h1] at hsid
    rw [h2] at hsku
    rw [← hsid, ← hsku]
    exact hk
  · intro hk
    refine ⟨interpRow (interpSub (s0 :: rest) (sid, sku)) sid sku
        (interpCat (s0 :: rest) (sid, sku))
        (listMinD ((s0 :: rest).map (fun r => r.series_date))), ?_, ?_⟩
    · apply (interp_mem_iff m s0 rest _).mpr
      exact ⟨(sid, sku), hk, _,
        mem_dateRange.mpr ⟨le_refl _, interp_min_le_max s0 rest⟩, rfl⟩
    · obtain ⟨h1, h2, _⟩ := interpRow_key (interpSub (s0 :: rest) (sid, sku)) sid sku
        (interpCat (s0 :: rest) (sid, sku)) _
      exact ⟨h1, h2⟩

/-- For a (store, SKU) pair present in the output, a day is covered exactly
when it lies in the contiguous global range. -/
theorem interp_range_iff (m : String) (s0 : SeriesRow) (rest : List SeriesRow)
    (sid sku : String) (hk : (sid, sku) ∈ interpKeys (s0 :: rest)) (d : Int) :
    (∃ r' ∈ (MissingDataInterpolator.mk m).transform (s0 :: rest),
        seriesKey3 r' = (sid, sku, d)) ↔
      (listMinD ((s0 :: rest).map (fun r => r.series_date)) ≤ d ∧
       d ≤ listMaxD ((s0 :: rest).map (fun r => r.series_date))) := by
  constructor
  · intro ⟨r', hr', hkey⟩
    obtain ⟨k, hkmem, d', hd', rfl⟩ := (interp_mem_iff m s0 rest _).mp hr'
    obtain ⟨h1, h2, h3⟩ := interpRow_key (interpSub (s0 :: rest) k) k.1 k.2
      (interpCat (s0 :: rest) k) d'
    rw [seriesKey3, h1, h2, h3] at hkey
    injection hkey with e1 e23
    injection e23 with e2 e3
    rw [← e3]
    exact mem_dateRange.mp hd'
  · intro hbounds
    refine ⟨interpRow (interpSub (s0 :: rest) (sid, sku)) sid sku
        (interpCat (s0 :: rest) (sid, sku)) d, ?_, ?_⟩
    · exact (interp_mem_iff m s0 rest _).mpr
        ⟨(sid, sku), hk, d, mem_dateRange.mpr hbounds, rfl⟩
    · obtain ⟨h1, h2, h3⟩ := interpRow_key (interpSub (s0 :: rest) (sid, sku)) sid sku
        (interpCat (s0 :: rest) (sid, sku)) d
      rw [seriesKey3, h1, h2, h3]

/-- A day with no source row for its (store, SKU) key is zero-filled and
marked interpolated. -/
theorem interp_missing_fill (m : String) (s0 : SeriesRow) (rest : List SeriesRow)
    (r' : SeriesRow) (hr' : r' ∈ (MissingDataInterpolator.mk m).transform (s0 :: rest))
    (hmiss : ¬ ∃ r ∈ (s0 :: rest), seriesKey3 r = seriesKey3 r') :
    r'.quantity = 0 ∧ r'.revenue = 0 ∧ r'.is_interpolated = true := by
  obtain ⟨k, hkmem, d, hd, rfl⟩ := (interp_mem_iff m s0 rest _).mp hr'
  cases hfind : (interpSub (s0 :: rest) k).find? (fun r => r.series_date = d) with
  | none => exact interpRow_of_find?_none hfind
  | some rr =>
    exfalso
    apply hmiss
    have hrrmem : rr ∈ interpSub (s0 :: rest) k := List.mem_of_find?_eq_some hfind
    have hrrdate : rr.series_date = d := by simpa using List.find?_some hfind
    have hrrfilter := List.mem_filter.mp hrrmem
    have hrrkey : rr.store_id = k.1 ∧ rr.sku_id = k.2 := of_decide_eq_true hrrfilter.2
    refine ⟨rr, hrrfilter.1, ?_⟩
    obtain ⟨h1, h2, h3⟩ := interpRow_key (interpSub (s0 :: rest) k) k.1 k.2
      (interpCat (s0 :: rest) k) d
    rw [seriesKey3, seriesKey3, h1, h2, h3, hrrkey.1, hrrkey.2, hrrdate]

/-- Every output row's store is the store of some input row. -/
theorem interp_store (m : String) (s0 : SeriesRow) (rest : List SeriesRow)
    (r' : SeriesRow) (hr' : r' ∈ (MissingDataInterpolator.mk m).transform (s0 :: rest)) :
    ∃ r ∈ (s0 :: rest), r.store_id = r'.store_id := by
  obtain ⟨k, hkmem, d, hd, rfl⟩ := (interp_mem_iff m s0 rest _).mp hr'
  obtain ⟨r, hr, hrk⟩ := List.mem_map.mp (List.mem_dedup.mp hkmem)
  obtain ⟨h1, _, _⟩ := interpRow_key (interpSub (s0 :: rest) k) k.1 k.2
    (interpCat (s0 :: rest) k) d
  refine ⟨r, hr, ?_⟩
  rw [h1, ← hrk]

/-- The four C1 facts about the interpolation output of an arbitrary
non-empty input. -/
theorem interp_facts_of_input (m : String) (s : List SeriesRow) (hne : s ≠ []) :
    (((MissingDataInterpolator.mk m).transform s).map seriesKey3).Nodup ∧
    (∀ r' ∈ (MissingDataInterpolator.mk m).transform s,
      ∃ r ∈ s, r.store_id = r'.store_id) ∧
    (∀ sid sku,
      (∃ r' ∈ (MissingDataInterpolator.mk m).transform s,
        r'.store_id = sid ∧ r'.sku_id = sku) →
      ∀ d : Int, (∃ r' ∈ (MissingDataInterpolator.mk m).transform s,
          seriesKey3 r' = (sid, sku, d)) ↔
        (listMinD (s.map (fun r => r.series_date)) ≤ d ∧
         d ≤ listMaxD (s.map (fun r => r.series_date)))) ∧
    (∀ r' ∈ (MissingDataInterpolator.mk m).transform s,
      (¬ ∃ r ∈ s, seriesKey3 r = seriesKey3 r') →
      r'.quantity = 0 ∧ r'.revenue = 0 ∧ r'.is_interpolated = true) := by
  match s with
  | s0 :: rest =>
    refine ⟨interp_nodup m s0 rest, ?_, ?_, ?_⟩
    · intro r' hr'
      exact interp_store m s0 rest r' hr'
    · intro sid sku hpresent d
      exact interp_range_iff m s0 rest sid sku
        ((interp_key_present_iff m s0 rest sid sku).mp hpresent) d
    · intro r' hr' hmiss
      exact interp_missing_fill m s0 rest r' hr' hmiss

/-- The C1 facts for the tail of the pipeline (rollup, outliers,
interpolation) over any dedup output whose (store, canonical SKU, day)
projection comes from the raw orders. -/
theorem rolled_facts (m : String) (detector : OutlierDetector)
    (mappings : List SKUMapping) (store_id : String)
    (ded : List DedupOrder) (orders : List RawOrder)
    (hded : ded.map (fun o => (o.store_id, o.canonical_sku, o.series_date)) =
      orders.map (fun o =>
        (o.store_id, canonicalSku mappings store_id o, o.order_date_utc.utcDay)))
    (hne : orders ≠ []) (hstore : ∀ o ∈ orders, o.store_id = store_id) :
    (((MissingDataInterpolator.mk m).transform
        (detector.transform (VariantRollup.transform ded))).map seriesKey3).Nodup ∧
    (∀ r' ∈ (MissingDataInterpolator.mk m).transform
        (detector.transform (VariantRollup.transform ded)),
      r'.store_id = store_id) ∧
    (∀ sid sku,
      (∃ r' ∈ (MissingDataInterpolator.mk m).transform
          (detector.transform (VariantRollup.transform ded)),
        r'.store_id = sid ∧ r'.sku_id = sku) →
      ∀ d : Int, (∃ r' ∈ (MissingDataInterpolator.mk m).transform
          (detector.transform (VariantRollup.transform ded)),
          seriesKey3 r' = (sid, sku, d)) ↔
        (listMinD (orders.map (fun o => o.order_date_utc.utcDay)) ≤ d ∧
         d ≤ listMaxD (orders.map (fun o => o.order_date_utc.utcDay)))) ∧
    (∀ r' ∈ (MissingDataInterpolator.mk m).transform
        (detector.transform (VariantRollup.transform ded)),
      (¬ ∃ o ∈ orders, canonicalSku mappings store_id o = r'.sku_id ∧
        o.order_date_utc.utcDay = r'.series_date) →
      r'.quantity = 0 ∧ r'.revenue = 0 ∧ r'.is_interpolated = true) := by
  have hdedne : ded ≠ [] := by
    intro hcon
    apply hne
    have hlen := congrArg List.length hded
    rw [List.length_map, List.length_map] at hlen
    rw [hcon] at hlen
    exact List.length_eq_zero.mp hlen.symm
  have hrollne : VariantRollup.transform ded ≠ [] := rollup_ne_nil hdedne
  have houtkey : (detector.transform (VariantRollup.transform ded)).map seriesKey3 =
      (VariantRollup.transform ded).map seriesKey3 := outlier_key3 detector _
  have houtlne : detector.transform (VariantRollup.transform ded) ≠ [] := by
    intro hcon
    apply hrollne
    have hlen := congrArg List.length houtkey
    rw [List.length_map, List.length_map, hcon] at hlen
    exact List.length_eq_zero.mp hlen.symm
  obtain ⟨facts1, facts2, facts3, facts4⟩ :=
    interp_facts_of_input m (detector.transform (VariantRollup.transform ded)) houtlne
  -- date lists agree member-wise with the raw orders' days
  have hd1 : (detector.transform (VariantRollup.transform ded)).map
      (fun r => r.series_date) = (VariantRollup.transform ded).map (fun r => r.series_date) := by
    have h := congrArg (List.map (fun t : String × String × Int => t.2.2)) houtkey
    rw [List.map_map, List.map_map] at h
    exact h
  have hd3 : ded.map (fun o => o.series_date) =
      orders.map (fun o => o.order_date_utc.utcDay) := by
    have h := congrArg (List.map (fun t : String × String × Int => t.2.2)) hded
    rw [List.map_map, List.map_map] at h
    exact h
  have hd2 : ∀ x : Int, x ∈ (VariantRollup.transform ded).map (fun r => r.series_date) ↔
      x ∈ ded.map (fun o => o.series_date) := by
    intro x
    constructor
    · intro hx
      obtain ⟨r, hr, rfl⟩ := List.mem_map.mp hx
      obtain ⟨o, ho, _, _, hdate⟩ := rollup_mem_key hr
      exact List.mem_map.mpr ⟨o, ho, hdate⟩
    · intro hx
      obtain ⟨o, ho, rfl⟩ := List.mem_map.mp hx
      obtain ⟨r, hr, _, _, hdate⟩ := rollup_key_mem ho
      exact List.mem_map.mpr ⟨r, hr, hdate⟩
  have hdiff : ∀ x : Int,
      x ∈ (detector.transform (VariantRollup.transform ded)).map (fun r => r.series_date) ↔
      x ∈ orders.map (fun o => o.order_date_utc.utcDay) := by
    intro x
    rw [hd1, ← hd3]
    exact hd2 x
  have houtmapne : (detector.transform (VariantRollup.transform ded)).map
      (fun r => r.series_date) ≠ [] := by
    intro hcon
    exact houtlne (List.map_eq_nil_iff.mp hcon)
  have hordmapne : orders.map (fun o => o.order_date_utc.utcDay) ≠ [] := by
    intro hcon
    exact hne (List.map_eq_nil_iff.mp hcon)
  have hmineq := listMinD_eq_of_mem_iff hdiff houtmapne hordmapne
  have hmaxeq := listMaxD_eq_of_mem_iff hdiff houtmapne hordmapne
  refine ⟨facts1, ?_, ?_, ?_⟩
  · -- every output row belongs to the store
    intro r' hr'
    obtain ⟨r, hrmem, hrst⟩ := facts2 r' hr'
    obtain ⟨y, hy, hykey⟩ := mem_of_map_eq2 houtkey hrmem
    have hyst : y.store_id = r.store_id := congrArg (fun t => t.1) hykey
    obtain ⟨o, ho, host, _, _⟩ := rollup_mem_key hy
    obtain ⟨o0, ho0, hg⟩ := mem_of_map_eq2 hded ho
    have h0st : o0.store_id = o.store_id := congrArg (fun t => t.1) hg
    rw [← hrst, ← hyst, ← host, ← h0st]
    exact hstore o0 ho0
  · -- contiguous range, bounded by the raw orders' min and max day
    intro sid sku hpresent d
    rw [← hmineq, ← hmaxeq]
    exact facts3 sid sku hpresent d
  · -- zero fill on missing days
    intro r' hr' hmiss
    apply facts4 r' hr'
    intro ⟨r, hrmem, hkey⟩
    apply hmiss
    obtain ⟨y, hy, hykey⟩ := mem_of_map_eq2 houtkey hrmem
    obtain ⟨o, ho, _, hsku, hdate⟩ := rollup_mem_key hy
    obtain ⟨o0, ho0, hg⟩ := mem_of_map_eq2 hded ho
    have h0sku : canonicalSku mappings store_id o0 = o.canonical_sku :=
      congrArg (fun t => t.2.1) hg
    have h0date : o0.order_date_utc.utcDay = o.series_date :=
      congrArg (fun t => t.2.2) hg
    have hysku : y.sku_id = r.sku_id := congrArg (fun t => t.2.1) hykey
    have hydate : y.series_date = r.series_date := congrArg (fun t => t.2.2) hykey
    have hrsku : r.sku_id = r'.sku_id := congrArg (fun t => t.2.1) hkey
    have hrdate : r.series_date = r'.series_date := congrArg (fun t => t.2.2) hkey
    refine ⟨o0, ho0, ?_, ?_⟩
    · rw [h0sku, hsku, hysku, hrsku]
    · rw [h0date, hdate, hydate, hrdate]

/-- C1: after a full pipeline run on a non-empty raw-order load, the
persisted normalized series of the store has exactly one row per
(store, SKU, date), every row belongs to the store, for every (store, SKU)
present the covered days are exactly the contiguous range from the store's
minimum to maximum order day, and every day with no source order line for
its SKU is zero-filled and flagged interpolated. -/
theorem pipeline_series_contiguous_unique :
    ∀ (config : PipelineConfig) (outlier_strategy interpolation_method store_id : String)
      (db : DBState),
      PipelineRunner.load_raw_orders db store_id ≠ [] →
      ((pipelineOut config outlier_strategy interpolation_method store_id db).map
          seriesKey3).Nodup ∧
      (∀ r' ∈ pipelineOut config outlier_strategy interpolation_method store_id db,
        r'.store_id = store_id) ∧
      (∀ sid sku,
        (∃ r' ∈ pipelineOut config outlier_strategy interpolation_method store_id db,
          r'.store_id = sid ∧ r'.sku_id = sku) →
        ∀ d : Int,
          (∃ r' ∈ pipelineOut config outlier_strategy interpolation_method store_id db,
            seriesKey3 r' = (sid, sku, d)) ↔
          (listMinD ((PipelineRunner.load_raw_orders db store_id).map
              (fun o => o.order_date_utc.utcDay)) ≤ d ∧
           d ≤ listMaxD ((PipelineRunner.load_raw_orders db store_id).map
              (fun o => o.order_date_utc.utcDay)))) ∧
      (∀ r' ∈ pipelineOut config outlier_strategy interpolation_method store_id db,
        (¬ ∃ o ∈ PipelineRunner.load_raw_orders db store_id,
          canonicalSku db.sku_mappings store_id o = r'.sku_id ∧
          o.order_date_utc.utcDay = r'.series_date) →
        r'.quantity = 0 ∧ r'.revenue = 0 ∧ r'.is_interpolated = true) := by
  intro config os im sid db hne
  have hstore : ∀ o ∈ PipelineRunner.load_raw_orders db sid, o.store_id = sid := by
    intro o ho
    exact of_decide_eq_true (List.mem_filter.mp ho).2
  have hfacts := rolled_facts im (OutlierDetector.mk os (3/2)) db.sku_mappings sid
    (SKUDeduplicator.transform db.sku_mappings sid
      (RefundAdjustment.transform db.raw_refunds config
        (CurrencyNormalizer.transform config
          ((TimezoneNormalizer.mk config.timezone).transform
            (PipelineRunner.load_raw_orders db sid)))))
    (PipelineRunner.load_raw_orders db sid)
    (pre_rollup_key db.sku_mappings sid db.raw_refunds config config.timezone _)
    hne hstore
  have hstages : PipelineRunner.stages config os im db sid
      (PipelineRunner.load_raw_orders db sid) =
      (MissingDataInterpolator.mk im).transform
        ((OutlierDetector.mk os (3/2)).transform
          (VariantRollup.transform
            (SKUDeduplicator.transform db.sku_mappings sid
              (RefundAdjustment.transform db.raw_refunds config
                (CurrencyNormalizer.transform config
                  ((TimezoneNormalizer.mk config.timezone).transform
                    (PipelineRunner.load_raw_orders db sid))))))) := rfl
  have hbody : PipelineRunner.runBody sid
      (fun db0 orders => Except.ok (PipelineRunner.stages config os im db0 sid orders)) db =
      Except.ok
        ({ store_id := sid,
           output_rows := (PipelineRunner.stages config os im db sid
             (PipelineRunner.load_raw_orders db sid)).length,
           error := none },
         { db with normalized := (db.normalized.filter (fun r => ¬ r.store_id = sid) ++
             PipelineRunner.stages config os im db sid
               (PipelineRunner.load_raw_orders db sid)) }) := by
    rw [PipelineRunner.runBody]
    simp only [if_neg hne]
  have hrun2 : (PipelineRunner.runPipeline config os im sid db).2 =
      { db with normalized := (db.normalized.filter (fun r => ¬ r.store_id = sid) ++
          PipelineRunner.stages config os im db sid
            (PipelineRunner.load_raw_orders db sid)) } := by
    rw [PipelineRunner.runPipeline, PipelineRunner.run]
    simp only [get_session, hbody]
  have hout : pipelineOut config os im sid db =
      PipelineRunner.stages config os im db sid (PipelineRunner.load_raw_orders db sid) := by
    rw [pipelineOut, storeSeries, hrun2]
    show (db.normalized.filter (fun r => ¬ r.store_id = sid) ++
        PipelineRunner.stages config os im db sid
          (PipelineRunner.load_raw_orders db sid)).filter (fun r => r.store_id = sid) = _
    rw [List.filter_append]
    have h1 : (db.normalized.filter (fun r => ¬ r.store_id = sid)).filter
        (fun r => r.store_id = sid) = [] := by
      rw [List.filter_filter]
      apply List.filter_eq_nil_iff.mpr
      intro a _
      by_cases hcase : a.store_id = sid
      · simp [hcase]
      · simp [hcase]
    have h2 : (PipelineRunner.stages config os im db sid
        (PipelineRunner.load_raw_orders db sid)).filter (fun r => r.store_id = sid) =
        PipelineRunner.stages config os im db sid (PipelineRunner.load_raw_orders db sid) := by
      apply List.filter_eq_self.mpr
      intro r hr
      exact decide_eq_true (hfacts.2.1 r hr)
    rw [h1, h2, List.nil_append]
  rw [hout, hstages]
  exact hfacts

theorem pipeline_series_contiguous_unique_witness :
    PipelineRunner.load_raw_orders dbW "s1" ≠ [] ∧
    ((pipelineOut configW "cap" "linear" "s1" dbW).map seriesKey3).Nodup :=
  ⟨by decide,
   (pipeline_series_contiguous_unique configW "cap" "linear" "s1" dbW (by decide)).1⟩

end Luma
